import Mathlib

/-!
The RPC adapter of libp2p_helper, `src/app/libp2p_helper/src/libp2p_helper/main.go`.

A shallow embedding of the helper's RPC loop, its handlers and the tasks they
start, followed by the properties proved about them.

Conventions of the embedding.

* Go `int` is `Int`; where the program does arithmetic on it (the sequence
  generator) the 64-bit wrap-around is explicit.
* A Go `error` is a `GoError`; a function returning `(T, error)` returns
  `Except GoError T`.
* A Go map keyed by `int` is a `GoMap`.
* The libraries the program calls (libp2p, pubsub, the JSON decoder, ...) are
  not part of the sources. What they answer is taken from a record of oracles
  (`Lib`), which may depend on the history of calls made so far; every call is
  appended to that history, so the effects of a handler on the outside world
  can be read off the state.
* Goroutines are modelled one by one as functions over the shared state; the
  mutex `OutLock` has no counterpart, the output being a list of whole messages.
-/

namespace Libp2pHelper

/-! ## Errors (main.go, lines 117-156) -/

/-- A Go `error` value: a plain message (`errors.New`, or an error handed back
by a library), the program's own `wrappedError`, or the sentinel `io.EOF`,
which the program recognises by identity. -/
inductive GoError where
  | errorString (s : String)
  | wrappedError (e : GoError) (tag : String)
  | EOF
  deriving DecidableEq, Repr, Inhabited

/-- `errors.New`. -/
def errors.New (s : String) : GoError := .errorString s

/-- The method `Error()`; for a `wrappedError` it is
`fmt.Sprintf("%s error: %s", w.tag, w.e.Error())`. -/
def GoError.Error : GoError → String
  | .errorString s => s
  | .wrappedError e tag => tag ++ " error: " ++ e.Error
  | .EOF => "EOF"

def wrapError (e : GoError) (tag : String) : GoError := .wrappedError e tag

def badRPC (e : GoError) : GoError := wrapError e "internal RPC error"

def badp2p (e : GoError) : GoError := wrapError e "libp2p error"

def badHelper (e : GoError) : GoError := wrapError e "initializing helper"

def badAddr (e : GoError) : GoError := wrapError e "initializing external addr"

def needsConfigure : GoError := badRPC (errors.New "helper not yet configured")

def needsDHT : GoError := badRPC (errors.New "helper not yet joined to pubsub")

/-! ## Go maps keyed by `int` -/

/-- A Go `map[int]α`, as the list of its entries; no key occurs twice in a map
built with `insert` and `delete` from `empty`, and `lookup` reads the first
entry of a key in any case. -/
structure GoMap (α : Type) where
  entries : List (Int × α)
  deriving DecidableEq, Repr

namespace GoMap

variable {α : Type}

/-- `make(map[int]α)`. -/
def empty : GoMap α := ⟨[]⟩

def lookupList : List (Int × α) → Int → Option α
  | [], _ => none
  | (k', v) :: m, k => if k' = k then some v else lookupList m k

/-- `v, ok := m[k]`: `some v` when `ok`. -/
def lookup (m : GoMap α) (k : Int) : Option α := lookupList m.entries k

/-- `delete(m, k)`. -/
def delete (m : GoMap α) (k : Int) : GoMap α := ⟨m.entries.filter (fun p => p.1 ≠ k)⟩

/-- `m[k] = v`. -/
def insert (m : GoMap α) (k : Int) (v : α) : GoMap α := ⟨(k, v) :: (m.delete k).entries⟩

/-- The keys of the map. -/
def keys (m : GoMap α) : List Int := m.entries.map Prod.fst

end GoMap

/-! ## The sequence generator (main.go, lines 55 and 963-969) -/

/-- A Go `int` on the 64-bit targets the helper is built for: the
two's-complement value of `x`. -/
def wrapInt64 (x : Int) : Int :=
  (x + 9223372036854775808) % 18446744073709551616 - 9223372036854775808

/-- One turn of the generator goroutine, `seqs <- i; i++`: the value a taker
receives and the next value of the loop variable. The channel is unbuffered, so
every value sent is received by exactly one taker. -/
def seqsTurn (i : Int) : Int × Int := (i, wrapInt64 (i + 1))

/-- The values received by the first `n` takers of `<-seqs`, in the order they
took them, when the loop variable stands at `i`. -/
def seqsTaken : Nat → Int → List Int
  | 0, _ => []
  | n + 1, i => (seqsTurn i).1 :: seqsTaken n (seqsTurn i).2

/-! ## Base-64 (main.go, lines 311-320) -/

/-- A byte. -/
abbrev Byte := Fin 256

/-- Modelled from the spec: the alphabet of standard base-64
(`base64.StdEncoding`; Go's package `encoding/base64` is not part of the
sources). -/
def encodeStd : List Char :=
  "ABCDEFGHIJKLMNOPQRSTUVWXYZabcdefghijklmnopqrstuvwxyz0123456789+/".toList

/-- The character of a six-bit value. -/
def encodeSextet (n : Nat) : Char := encodeStd.getD n 'A'

/-- The padding character of `base64.StdEncoding`. -/
def padChar : Char := '='

/-- Modelled from the spec: standard base-64 encoding
(`base64.StdEncoding.EncodeToString`) on the list of bytes: three bytes give
four characters, a last group of one or two bytes is padded with `=`. -/
def encodeBytes : List Byte → List Char
  | [] => []
  | [a] =>
    [encodeSextet (a.val / 4), encodeSextet (a.val % 4 * 16), padChar, padChar]
  | [a, b] =>
    [encodeSextet (a.val / 4), encodeSextet (a.val % 4 * 16 + b.val / 16),
     encodeSextet (b.val % 16 * 4), padChar]
  | a :: b :: c :: rest =>
    encodeSextet (a.val / 4) :: encodeSextet (a.val % 4 * 16 + b.val / 16) ::
    encodeSextet (b.val % 16 * 4 + c.val / 64) :: encodeSextet (c.val % 64) ::
    encodeBytes rest

/-- The function `codaEncode`, which is `base64.StdEncoding.EncodeToString`. -/
def codaEncode (data : List Byte) : String := String.mk (encodeBytes data)

/-- The six-bit value of a character, if it belongs to the alphabet. -/
def decodeSextet (c : Char) : Option Nat :=
  if encodeStd.indexOf c < 64 then some (encodeStd.indexOf c) else none

/-- `base64.CorruptInputError(n)`. -/
def CorruptInputError (n : Nat) : GoError :=
  .errorString ("illegal base64 data at input byte " ++ toString n)

/-- Modelled from the spec: the quanta of standard base-64 decoding
(`base64.StdEncoding.DecodeString`), `off` being the offset of the first
character: four characters of the alphabet give three bytes;
the last quantum may end in `==` (one byte) or `=` (two bytes), the bits left
over being dropped as the non-strict decoder does. -/
def decodeQuanta (off : Nat) : List Char → Except GoError (List Byte)
  | [] => .ok []
  | [_] => .error (CorruptInputError off)
  | [_, _] => .error (CorruptInputError off)
  | [_, _, _] => .error (CorruptInputError off)
  | a :: b :: c :: d :: rest =>
    match decodeSextet a, decodeSextet b with
    | none, _ => .error (CorruptInputError off)
    | some _, none => .error (CorruptInputError (off + 1))
    | some x, some y =>
      if c = padChar then
        if d = padChar ∧ rest = [] then .ok [Fin.ofNat (x * 4 + y / 16)]
        else .error (CorruptInputError (off + 2))
      else
        match decodeSextet c with
        | none => .error (CorruptInputError (off + 2))
        | some z =>
          if d = padChar then
            if rest = [] then
              .ok [Fin.ofNat (x * 4 + y / 16), Fin.ofNat (y % 16 * 16 + z / 4)]
            else .error (CorruptInputError (off + 4))
          else
            match decodeSextet d with
            | none => .error (CorruptInputError (off + 3))
            | some w =>
              match decodeQuanta (off + 4) rest with
              | .error e => .error e
              | .ok bs =>
                .ok (Fin.ofNat (x * 4 + y / 16) :: Fin.ofNat (y % 16 * 16 + z / 4) ::
                  Fin.ofNat (z % 4 * 64 + w) :: bs)

/-- The function `codaDecode`, which is `base64.StdEncoding.DecodeString`:
line breaks (`\r`, `\n`) are skipped, the rest is decoded quantum by quantum
(offsets in the error count the characters that are not line breaks). -/
def codaDecode (data : String) : Except GoError (List Byte) :=
  decodeQuanta 0 (data.toList.filter (fun c => c ≠ '\r' ∧ c ≠ '\n'))

/-! ## Data of the P2P stack -/

/-- `peer.ID`. -/
abbrev PeerID := String

/-- `multiaddr.Protocol`, as far as the program reads it. -/
structure Protocol where
  Name : String
  Code : Nat
  deriving DecidableEq, Repr

def P_IP4 : Nat := 4

def P_TCP : Nat := 6

def P_IP6 : Nat := 41

/-- `multiaddr.Component`: one `/name/value` step of a multiaddress. -/
structure Component where
  protocol : Protocol
  value : String
  deriving DecidableEq, Repr

/-- `multiaddr.Multiaddr`: the list of its components. -/
abbrev Multiaddr := List Component

/-- `Multiaddr.String()`. -/
def Multiaddr.String (ma : Multiaddr) : String :=
  String.join (ma.map (fun c => "/" ++ c.protocol.Name ++ "/" ++ c.value))

/-- `net.Conn`, as far as the program reads it. -/
structure Conn where
  RemoteMultiaddr : Multiaddr
  RemotePeer : PeerID
  deriving DecidableEq, Repr

/-- `net.Stream`: a handle, and the connection it runs on. -/
structure Stream where
  id : Nat
  Conn : Conn
  deriving DecidableEq, Repr

/-- `peer.AddrInfo`. -/
structure AddrInfo where
  ID : PeerID
  Addrs : List Multiaddr
  deriving DecidableEq, Repr

structure codaPeerInfo where
  Libp2pPort : Int
  Host : String
  PeerID : String
  deriving DecidableEq, Repr

/-- The type `subscription` (main.go, lines 37-42): `Sub` is the handle of the
pubsub subscription, `Ctx` the identity of the context made by
`context.WithCancel`; `Cancel` is the cancel function of that context and has
no field of its own. -/
structure subscription where
  Sub : Nat
  Idx : Int
  Ctx : Nat
  deriving DecidableEq, Repr

/-- A `chan bool` of capacity one: its place in the heap of channels. -/
abbrev Chan := Nat

/-! ## The IP filter table -/

namespace filter

/-- `filter.Action`. -/
inductive Action where
  | ActionNone
  | ActionAccept
  | ActionDeny
  deriving DecidableEq, Repr

/-- `net.IPNet`. -/
structure IPNet where
  IP : List Byte
  Mask : List Byte
  deriving DecidableEq, Repr

/-- Modelled from the spec: the IP filter table (`filter.Filters` of the
library go-maddr-filter, which is not part of the sources). A set of CIDR
entries, each with an action; there is at most one entry per CIDR. -/
structure Filters where
  DefaultAction : Action
  filters : List (IPNet × Action)
  deriving DecidableEq, Repr

/-- Modelled from the spec: the lookup of a CIDR, `(action, matched?)`;
`(ActionNone, false)` when no entry is the CIDR. -/
def Filters.ActionForFilter (fs : Filters) (ipnet : IPNet) : Action × Bool :=
  match fs.filters.find? (fun e => e.1 = ipnet) with
  | some e => (e.2, true)
  | none => (.ActionNone, false)

/-- Modelled from the spec: adds a rule for the CIDR; the entry of a CIDR that
has one takes the new action. -/
def Filters.AddFilter (fs : Filters) (ipnet : IPNet) (action : Action) : Filters :=
  if fs.filters.any (fun e => e.1 = ipnet) then
    { fs with filters := fs.filters.map (fun e => if e.1 = ipnet then (e.1, action) else e) }
  else
    { fs with filters := fs.filters ++ [(ipnet, action)] }

/-- Modelled from the spec: removes the entry that is literally the CIDR, and
says whether there was one. -/
def Filters.RemoveLiteral (fs : Filters) (ipnet : IPNet) : Filters × Bool :=
  if fs.filters.any (fun e => e.1 = ipnet) then
    ({ fs with filters := fs.filters.filter (fun e => e.1 ≠ ipnet) }, true)
  else (fs, false)

end filter

/-- `gonet.IPv4Mask(255, 255, 255, 255)`. -/
def IPv4Mask32 : List Byte := [255, 255, 255, 255]

/-! ## Messages written to the parent -/

structure generatedKeypair where
  Private : String
  Public : String
  PeerID : String
  deriving DecidableEq, Repr

structure openStreamResult where
  StreamIdx : Int
  Peer : codaPeerInfo
  deriving DecidableEq, Repr

/-- What a handler returns as its `interface{}` result: a string literal, the
listening addresses, a key pair, the result of `openStream`, one peer
descriptor or a list of them. -/
inductive Value where
  | str (s : String)
  | addrs (l : List Multiaddr)
  | keypair (k : generatedKeypair)
  | openStream (r : openStreamResult)
  | peerInfo (p : codaPeerInfo)
  | peerInfos (l : List codaPeerInfo)
  deriving DecidableEq, Repr

/-- `json.RawMessage`: the JSON encoding of a handler result. The bytes are the
encoder's business; the model keeps the value they encode. -/
structure RawMessage where
  encodes : Value
  deriving DecidableEq, Repr

/-- `json.Marshal` on a handler result. Every result is a string, a record of
strings and integers, or a list of these (a multiaddress marshals as its text),
and `encoding/json` encodes all of them; the error case of the signature is
kept for the caller's sake. -/
def jsonMarshal (v : Value) : Except GoError RawMessage := .ok ⟨v⟩

/-- The messages given to `writeMsg`: the two responses (`successResult`,
`errorResult`) and the upcalls, each with the fields of its Go type. -/
inductive Msg where
  | successResult (Seqno : Int) (Success : RawMessage) (Duration : String)
  | errorResult (Seqno : Int) (Errorr : String)
  | validateUpcall (Sender : Option codaPeerInfo) (Data : String) (Seqno : Int)
      (Upcall : String) (Idx : Int)
  | publishUpcall (Upcall : String) (Subscription : Int) (Data : String)
      (Sender : Option codaPeerInfo)
  | discoveredPeerUpcall (ID : String) (Addrs : List String) (Upcall : String)
  | incomingStreamUpcall (Upcall : String) (Peer : codaPeerInfo) (StreamIdx : Int)
      (Protocol : String)
  | incomingMsgUpcall (Upcall : String) (StreamIdx : Int) (Data : String)
  | streamLostUpcall (Upcall : String) (StreamIdx : Int) (Reason : String)
  | streamReadCompleteUpcall (Upcall : String) (StreamIdx : Int)
  deriving DecidableEq, Repr

/-- The `seqno` field of a response; an upcall is no response. -/
def Msg.responseSeqno : Msg → Option Int
  | .successResult n _ _ => some n
  | .errorResult n _ => some n
  | _ => none

/-! ## Requests -/

inductive methodIdx where
  | configure
  | listen
  | publish
  | subscribe
  | unsubscribe
  | validationComplete
  | generateKeypair
  | openStream
  | closeStream
  | resetStream
  | sendStreamMsg
  | removeStreamHandler
  | addStreamHandler
  | listeningAddrs
  | addPeer
  | beginAdvertising
  | findPeer
  | listPeers
  | banIP
  | unbanIP
  deriving DecidableEq, Repr

/-- The constants of the `iota` block, from their number. -/
def methodIdx.ofInt : Int → Option methodIdx
  | 0 => some .configure
  | 1 => some .listen
  | 2 => some .publish
  | 3 => some .subscribe
  | 4 => some .unsubscribe
  | 5 => some .validationComplete
  | 6 => some .generateKeypair
  | 7 => some .openStream
  | 8 => some .closeStream
  | 9 => some .resetStream
  | 10 => some .sendStreamMsg
  | 11 => some .removeStreamHandler
  | 12 => some .addStreamHandler
  | 13 => some .listeningAddrs
  | 14 => some .addPeer
  | 15 => some .beginAdvertising
  | 16 => some .findPeer
  | 17 => some .listPeers
  | 18 => some .banIP
  | 19 => some .unbanIP
  | _ => none

structure envelope where
  Method : Int
  Seqno : Int
  Body : String
  deriving DecidableEq, Repr

structure configureMsg where
  Statedir : String
  Privk : String
  NetworkID : String
  ListenOn : List String
  External : String
  UnsafeNoTrustIP : Bool
  deriving DecidableEq, Repr

structure listenMsg where
  Iface : String
  deriving DecidableEq, Repr

structure listeningAddrsMsg where
  deriving DecidableEq, Repr

structure publishMsg where
  Topic : String
  Data : String
  deriving DecidableEq, Repr

structure subscribeMsg where
  Topic : String
  Subscription : Int
  deriving DecidableEq, Repr

structure unsubscribeMsg where
  Subscription : Int
  deriving DecidableEq, Repr

structure validationCompleteMsg where
  Seqno : Int
  Valid : Bool
  deriving DecidableEq, Repr

structure generateKeypairMsg where
  deriving DecidableEq, Repr

structure openStreamMsg where
  Peer : String
  ProtocolID : String
  deriving DecidableEq, Repr

structure closeStreamMsg where
  StreamIdx : Int
  deriving DecidableEq, Repr

structure resetStreamMsg where
  StreamIdx : Int
  deriving DecidableEq, Repr

structure sendStreamMsgMsg where
  StreamIdx : Int
  Data : String
  deriving DecidableEq, Repr

structure addStreamHandlerMsg where
  Protocol : String
  deriving DecidableEq, Repr

structure removeStreamHandlerMsg where
  Protocol : String
  deriving DecidableEq, Repr

structure addPeerMsg where
  Multiaddr : String
  deriving DecidableEq, Repr

structure beginAdvertisingMsg where
  deriving DecidableEq, Repr

structure findPeerMsg where
  PeerID : String
  deriving DecidableEq, Repr

structure listPeersMsg where
  deriving DecidableEq, Repr

structure banIPMsg where
  IP : String
  deriving DecidableEq, Repr

structure unbanIPMsg where
  IP : String
  deriving DecidableEq, Repr

/-- The request type `msgHandlers` makes for a method (main.go, lines 923-944). -/
def Body : methodIdx → Type
  | .configure => configureMsg
  | .listen => listenMsg
  | .publish => publishMsg
  | .subscribe => subscribeMsg
  | .unsubscribe => unsubscribeMsg
  | .validationComplete => validationCompleteMsg
  | .generateKeypair => generateKeypairMsg
  | .openStream => openStreamMsg
  | .closeStream => closeStreamMsg
  | .resetStream => resetStreamMsg
  | .sendStreamMsg => sendStreamMsgMsg
  | .removeStreamHandler => removeStreamHandlerMsg
  | .addStreamHandler => addStreamHandlerMsg
  | .listeningAddrs => listeningAddrsMsg
  | .addPeer => addPeerMsg
  | .beginAdvertising => beginAdvertisingMsg
  | .findPeer => findPeerMsg
  | .listPeers => listPeersMsg
  | .banIP => banIPMsg
  | .unbanIP => unbanIPMsg

/-! ## The state -/

/-- The goroutines the program starts with `go`. -/
inductive Task where
  | delivery (Subscription : Int) (Sub : Nat) (Ctx : Nat)
  | delayedStreamReads (stream : Stream) (idx : Int)
  | streamReads (stream : Stream) (idx : Int)
  | localDiscovery
  | dhtDiscovery
  deriving DecidableEq, Repr

/-- The calls into the libraries that act on the outside world, the log lines
and the goroutines started; the state keeps them in the order they happened. -/
inductive Call where
  | MakeHelper (maddrs : List Multiaddr) (external : Multiaddr) (statedir : String)
      (networkID : String)
  | Listen (ma : Multiaddr)
  | Publish (topic : String) (data : List Byte)
  | RegisterTopicValidator (topic : String) (subscription : Int)
  | Subscribe (topic : String)
  | WithCancel (ctx : Nat)
  | SubCancel (sub : Nat)
  | CtxCancel (ctx : Nat)
  | GenerateEd25519Key
  | NewStream (peer : PeerID) (protocol : String)
  | StreamClose (stream : Stream)
  | StreamReset (stream : Stream)
  | StreamWrite (stream : Stream) (data : List Byte)
  | SetStreamHandler (protocol : String)
  | RemoveStreamHandler (protocol : String)
  | Connect (info : AddrInfo)
  | NewMdnsService
  | RegisterNotifee
  | NewRoutingDiscovery
  | Bootstrap
  | Advertise (rendezvous : String)
  | Log (text : String)
  | go (task : Task)
  deriving DecidableEq, Repr

/-- `codanet.Helper`, as far as main.go reads and writes it. `Dht` says whether
the pointer is non-nil; `Conns` and `Addrs` are what `Host.Network().Conns()`
and `Host.Addrs()` answer at the moment; the last three fields say whether
`beginAdvertising` has set them. -/
structure Helper where
  Me : PeerID
  Dht : Bool
  Filters : filter.Filters
  Rendezvous : String
  Conns : List Conn
  Addrs : List Multiaddr
  Mdns : Bool
  Discovery : Bool
  DiscoveredPeers : Bool
  deriving DecidableEq, Repr

/-- The struct `app` (main.go, lines 44-53) and, below `UnsafeNoTrustIP`, the
state of the process around it: the loop variable of the sequence generator,
the heap of validator channels (each the content of its one slot) and the
history of calls. `Out` is the list of messages written and flushed so far;
`Ctx` is the background context throughout and `OutLock` guards `Out`. -/
structure app where
  P2p : Option Helper
  Subs : GoMap subscription
  Validators : GoMap Chan
  Streams : GoMap Stream
  Out : List Msg
  UnsafeNoTrustIP : Bool
  seqs : Int
  chans : List (Option Bool)
  calls : List Call
  deriving DecidableEq, Repr

/-- The `app` made by `main` (lines 974-982), the generator at its start. -/
def app.init : app :=
  { P2p := none, Subs := GoMap.empty, Validators := GoMap.empty, Streams := GoMap.empty,
    Out := [], UnsafeNoTrustIP := false, seqs := 0, chans := [], calls := [] }

/-- A private or public key, by its marshalled bytes. -/
structure Key where
  raw : List Byte
  deriving DecidableEq, Repr

/-- What a call into a library does when the library may panic in it. -/
inductive Answer (α : Type) where
  | returns (a : α)
  | panics (v : String)

/-- What the libraries answer. The answers about the outside world may depend
on the whole state, the history of calls included; a call that acts on the
world is answered from the state it is made in. The calls return, but for
`Bootstrap`: `beginAdvertisingMsg.run` calls it on the pointer `app.P2p.Dht`,
which the program takes to be nil at times (lines 285 and 326) and does not
check there, so the library may panic in it. -/
structure Lib where
  unmarshalEnvelope : String → Except GoError envelope
  unmarshalBody : (m : methodIdx) → String → Except GoError (Body m)
  elapsed : app → String
  IDB58Decode : String → Except GoError PeerID
  IDB58Encode : PeerID → String
  NewMultiaddr : String → Except GoError Multiaddr
  AddrInfoFromP2pAddr : Multiaddr → Except GoError AddrInfo
  UnmarshalPrivateKey : List Byte → Except GoError Key
  MarshalPrivateKey : Key → Except GoError (List Byte)
  MarshalPublicKey : Key → Except GoError (List Byte)
  IDFromPublicKey : Key → Except GoError PeerID
  ParseIPTo4 : String → Option (List Byte)
  MakeHelper : app → List Multiaddr → Multiaddr → String → Key → String →
    Except GoError Helper
  Listen : app → Multiaddr → Except GoError (List Multiaddr)
  Publish : app → String → List Byte → Option GoError
  RegisterTopicValidator : app → String → Option GoError
  Subscribe : app → String → Except GoError Nat
  GenerateEd25519Key : app → Except GoError (Key × Key)
  NewStream : app → PeerID → String → Except GoError Stream
  StreamClose : app → Stream → Option GoError
  StreamReset : app → Stream → Option GoError
  StreamWrite : app → Stream → List Byte → Option GoError
  Connect : app → AddrInfo → Option GoError
  NewMdnsService : app → Option GoError
  NewRoutingDiscovery : app → Bool
  Bootstrap : app → Answer (Option GoError)

/-- How a piece of Go code ends: it returns `a` in state `s`, it panics with
value `v`, or it blocks for ever. -/
inductive Res (α : Type) where
  | ret (a : α) (s : app)
  | panic (v : String) (s : app)
  | block (s : app)

/-- Sequencing: what follows runs only after a return. -/
def Res.bind {α β : Type} (r : Res α) (f : α → app → Res β) : Res β :=
  match r with
  | .ret a s => f a s
  | .panic v s => .panic v s
  | .block s => .block s

/-- The state a piece of code ends in. -/
def Res.state {α : Type} : Res α → app
  | .ret _ s => s
  | .panic _ s => s
  | .block s => s

/-- A call into a library that acts on the outside world joins the history. -/
def record (c : Call) (s : app) : app := { s with calls := s.calls ++ [c] }

/-- A line given to the logger. -/
def logLine (text : String) (s : app) : app := { s with calls := s.calls ++ [.Log text] }

/-- A goroutine started with `go`. -/
def spawn (t : Task) (s : app) : app := { s with calls := s.calls ++ [.go t] }

/-- The method `writeMsg` (main.go, lines 95-115): the message is marshalled,
written with a line feed and flushed, under `OutLock`. The pipe is taken to
accept every write (the panics of lines 102, 106, 110 and 113 answer a failing
pipe or encoder), so the message joins the output whole. -/
def writeMsg (msg : Msg) (s : app) : app := { s with Out := s.Out ++ [msg] }

/-- The receive `<-seqs`: the taker gets the value of the generator's turn. -/
def takeSeq (s : app) : Int × app := ((seqsTurn s.seqs).1, { s with seqs := (seqsTurn s.seqs).2 })

/-- The value a pointer dereference panics with. -/
def nilDeref : String := "runtime error: invalid memory address or nil pointer dereference"

/-! ## Peer descriptors (main.go, lines 158-199) -/

/-- `strconv.Atoi`: an optional sign and decimal digits, within the range of a
64-bit `int`. -/
def strconv.Atoi (str : String) : Except GoError Int :=
  let ds := match str.toList with
    | '-' :: r => r
    | '+' :: r => r
    | r => r
  if ds = [] ∨ ¬ ds.all Char.isDigit then
    .error (.errorString ("strconv.Atoi: parsing \"" ++ str ++ "\": invalid syntax"))
  else
    let n : Int := ds.foldl (fun a c => 10 * a + ((c.toNat : Int) - 48)) 0
    let v : Int := if str.toList.head? = some '-' then -n else n
    if v < -9223372036854775808 ∨ 9223372036854775807 < v then
      .error (.errorString ("strconv.Atoi: parsing \"" ++ str ++ "\": value out of range"))
    else .ok v

/-- `multiaddr.SplitFirst`: the first component and the rest; there is no
first component in an empty address. -/
def SplitFirst : Multiaddr → Option (Component × Multiaddr)
  | [] => none
  | c :: rest => some (c, rest)

/-- The function `parseMultiaddrWithID`. Reading the protocol of a component
that is not there dereferences a nil pointer. -/
def parseMultiaddrWithID (lib : Lib) (ma : Multiaddr) (id : PeerID) (s : app) :
    Res (Except GoError codaPeerInfo) :=
  match SplitFirst ma with
  | none => .panic nilDeref s
  | some (ipComponent, tcpMaddr) =>
    if ¬ (ipComponent.protocol.Code = P_IP4 ∨ ipComponent.protocol.Code = P_IP6) then
      .ret (.error (badRPC (errors.New
        ("only IP connections are supported right now, how did this peer connect?: "
          ++ Multiaddr.String ma)))) s
    else
      match SplitFirst tcpMaddr with
      | none => .panic nilDeref s
      | some (tcpComponent, _) =>
        if tcpComponent.protocol.Code ≠ P_TCP then
          .ret (.error (badRPC (errors.New
            "only TCP connections are supported right now, how did this peer connect?"))) s
        else
          match strconv.Atoi tcpComponent.value with
          | .error err => .ret (.error err) s
          | .ok port =>
            .ret (.ok { Libp2pPort := port, Host := ipComponent.value,
                        PeerID := lib.IDB58Encode id }) s

/-- `Host.Network().ConnsToPeer(id)`. -/
def Helper.ConnsToPeer (h : Helper) (id : PeerID) : List Conn :=
  h.Conns.filter (fun c => c.RemotePeer = id)

/-- The function `findPeerInfo`. -/
def findPeerInfo (lib : Lib) (id : PeerID) (s : app) : Res (Except GoError codaPeerInfo) :=
  match s.P2p with
  | none => .ret (.error needsConfigure) s
  | some p =>
    match p.ConnsToPeer id with
    | [] =>
      if s.UnsafeNoTrustIP then
        .ret (.ok { Libp2pPort := 0, Host := "127.0.0.1", PeerID := lib.IDB58Encode id })
          (logLine "UnsafeNoTrustIP: pretending it's localhost" s)
      else
        .ret (.error (badp2p (errors.New
          "tried to find peer info but no open connections to that peer ID"))) s
    | conn :: _ => parseMultiaddrWithID lib conn.RemoteMultiaddr conn.RemotePeer s

/-! ## The handlers (main.go, lines 201-921) -/

/-- What `run` returns, `(interface{}, error)`: a result with a nil error, or
no result and an error. -/
abbrev Result := Except GoError Value

/-- The loop of `configureMsg.run` over `ListenOn`; it stops at the first
address that does not parse. -/
def parseListenOn (lib : Lib) : List String → Except GoError (List Multiaddr)
  | [] => .ok []
  | v :: vs =>
    match lib.NewMultiaddr v with
    | .error err => .error err
    | .ok res =>
      match parseListenOn lib vs with
      | .error err => .error err
      | .ok l => .ok (res :: l)

def configureMsg.run (lib : Lib) (m : configureMsg) (s0 : app) : Res Result :=
  let s := { s0 with UnsafeNoTrustIP := m.UnsafeNoTrustIP }
  match codaDecode m.Privk with
  | .error err => .ret (.error (badRPC err)) s
  | .ok privkBytes =>
    match lib.UnmarshalPrivateKey privkBytes with
    | .error err => .ret (.error (badRPC err)) s
    | .ok privk =>
      match parseListenOn lib m.ListenOn with
      | .error err => .ret (.error (badRPC err)) s
      | .ok maddrs =>
        match lib.NewMultiaddr m.External with
        | .error err => .ret (.error (badAddr err)) s
        | .ok externalMaddr =>
          match lib.MakeHelper s maddrs externalMaddr m.Statedir privk m.NetworkID with
          | .error err =>
            .ret (.error (badHelper err))
              (record (.MakeHelper maddrs externalMaddr m.Statedir m.NetworkID) s)
          | .ok helper =>
            .ret (.ok (.str "configure success"))
              { record (.MakeHelper maddrs externalMaddr m.Statedir m.NetworkID) s with
                P2p := some helper }

def listenMsg.run (lib : Lib) (m : listenMsg) (s : app) : Res Result :=
  match s.P2p with
  | none => .ret (.error needsConfigure) s
  | some p =>
    match lib.NewMultiaddr m.Iface with
    | .error err => .ret (.error (badp2p err)) s
    | .ok ma =>
      match lib.Listen s ma with
      | .error err => .ret (.error (badp2p err)) (record (.Listen ma) s)
      | .ok addrs =>
        .ret (.ok (.addrs addrs))
          { record (.Listen ma) s with P2p := some { p with Addrs := addrs } }

def listeningAddrsMsg.run (_lib : Lib) (_m : listeningAddrsMsg) (s : app) : Res Result :=
  match s.P2p with
  | none => .ret (.error needsConfigure) s
  | some p => .ret (.ok (.addrs p.Addrs)) s

def publishMsg.run (lib : Lib) (t : publishMsg) (s : app) : Res Result :=
  match s.P2p with
  | none => .ret (.error needsConfigure) s
  | some p =>
    if p.Dht = false then .ret (.error needsDHT) s
    else
      match codaDecode t.Data with
      | .error err => .ret (.error (badRPC err)) s
      | .ok data =>
        match lib.Publish s t.Topic data with
        | some err => .ret (.error (badp2p err)) (record (.Publish t.Topic data) s)
        | none => .ret (.ok (.str "publish success")) (record (.Publish t.Topic data) s)

/-- The method `subscribeMsg.run`, the validator it registers (lines 329-374)
and the delivery goroutine it starts (lines 391-415) apart: they run when
pubsub calls them, and are `topicValidator` and `Task.delivery`. The context
made by `context.WithCancel` is named by the length of the history. -/
def subscribeMsg.run (lib : Lib) (m : subscribeMsg) (s : app) : Res Result :=
  match s.P2p with
  | none => .ret (.error needsConfigure) s
  | some p =>
    if p.Dht = false then .ret (.error needsDHT) s
    else
      match lib.RegisterTopicValidator s m.Topic with
      | some err =>
        .ret (.error (badp2p err)) (record (.RegisterTopicValidator m.Topic m.Subscription) s)
      | none =>
        let s1 := record (.RegisterTopicValidator m.Topic m.Subscription) s
        match lib.Subscribe s1 m.Topic with
        | .error err => .ret (.error (badp2p err)) (record (.Subscribe m.Topic) s1)
        | .ok sub =>
          let s2 := record (.Subscribe m.Topic) s1
          let ctx := s2.calls.length
          let s3 := record (.WithCancel ctx) s2
          let s4 := { s3 with
            Subs := s3.Subs.insert m.Subscription
              { Sub := sub, Idx := m.Subscription, Ctx := ctx } }
          .ret (.ok (.str "subscribe success")) (spawn (.delivery m.Subscription sub ctx) s4)

def unsubscribeMsg.run (_lib : Lib) (u : unsubscribeMsg) (s : app) : Res Result :=
  match s.P2p with
  | none => .ret (.error needsConfigure) s
  | some _ =>
    match s.Subs.lookup u.Subscription with
    | some sub =>
      let s1 := record (.SubCancel sub.Sub) s
      let s2 := record (.CtxCancel sub.Ctx) s1
      .ret (.ok (.str "unsubscribe success")) { s2 with Subs := s2.Subs.delete u.Subscription }
    | none => .ret (.error (badRPC (errors.New "subscription not found"))) s

/-- The send `ch <- v` on a channel of capacity one: it fills the free slot;
it blocks when the slot is taken, and on a channel that was never made. -/
def chanSend (ch : Chan) (v : Bool) (s : app) : Option app :=
  match s.chans.get? ch with
  | some none => some { s with chans := s.chans.set ch (some v) }
  | _ => none

def validationCompleteMsg.run (_lib : Lib) (r : validationCompleteMsg) (s : app) :
    Res Result :=
  match s.P2p with
  | none => .ret (.error needsConfigure) s
  | some _ =>
    match s.Validators.lookup r.Seqno with
    | some ch =>
      match chanSend ch r.Valid s with
      | none => .block s
      | some s1 =>
        .ret (.ok (.str "validationComplete success"))
          { s1 with Validators := s1.Validators.delete r.Seqno }
    | none => .ret (.error (badRPC (errors.New "validation seqno unknown"))) s

def generateKeypairMsg.run (lib : Lib) (_m : generateKeypairMsg) (s : app) : Res Result :=
  match lib.GenerateEd25519Key s with
  | .error err => .ret (.error (badp2p err)) (record .GenerateEd25519Key s)
  | .ok (privk, pubk) =>
    match lib.MarshalPrivateKey privk with
    | .error err => .ret (.error (badRPC err)) (record .GenerateEd25519Key s)
    | .ok privkBytes =>
      match lib.MarshalPublicKey pubk with
      | .error err => .ret (.error (badRPC err)) (record .GenerateEd25519Key s)
      | .ok pubkBytes =>
        match lib.IDFromPublicKey pubk with
        | .error err => .ret (.error (badp2p err)) (record .GenerateEd25519Key s)
        | .ok peerID =>
          .ret (.ok (.keypair { Private := codaEncode privkBytes,
                                Public := codaEncode pubkBytes,
                                PeerID := lib.IDB58Encode peerID }))
            (record .GenerateEd25519Key s)

/-- The function `handleStreamReads` (line 515): it starts the read task, whose
body is `streamReads`. -/
def handleStreamReads (stream : Stream) (idx : Int) (s : app) : app :=
  spawn (.streamReads stream idx) s

def openStreamMsg.run (lib : Lib) (o : openStreamMsg) (s : app) : Res Result :=
  match s.P2p with
  | none => .ret (.error needsConfigure) s
  | some _ =>
    let streamIdx := (takeSeq s).1
    let s1 := (takeSeq s).2
    match lib.IDB58Decode o.Peer with
    | .error err => .ret (.error (badRPC err)) s1
    | .ok peer =>
      match lib.NewStream s1 peer o.ProtocolID with
      | .error err => .ret (.error (badp2p err)) (record (.NewStream peer o.ProtocolID) s1)
      | .ok stream =>
        (parseMultiaddrWithID lib stream.Conn.RemoteMultiaddr stream.Conn.RemotePeer
            (record (.NewStream peer o.ProtocolID) s1)).bind fun r s2 =>
          match r with
          | .error err => .ret (.error (badp2p err)) (record (.StreamReset stream) s2)
          | .ok maybePeer =>
            .ret (.ok (.openStream { StreamIdx := streamIdx, Peer := maybePeer }))
              (spawn (.delayedStreamReads stream streamIdx)
                { s2 with Streams := s2.Streams.insert streamIdx stream })

def closeStreamMsg.run (lib : Lib) (cs : closeStreamMsg) (s : app) : Res Result :=
  match s.P2p with
  | none => .ret (.error needsConfigure) s
  | some _ =>
    match s.Streams.lookup cs.StreamIdx with
    | some stream =>
      match lib.StreamClose s stream with
      | some err => .ret (.error (badp2p err)) (record (.StreamClose stream) s)
      | none => .ret (.ok (.str "closeStream success")) (record (.StreamClose stream) s)
    | none => .ret (.error (badRPC (errors.New "unknown stream_idx"))) s

def resetStreamMsg.run (lib : Lib) (cs : resetStreamMsg) (s : app) : Res Result :=
  match s.P2p with
  | none => .ret (.error needsConfigure) s
  | some _ =>
    match s.Streams.lookup cs.StreamIdx with
    | some stream =>
      let s1 := record (.StreamReset stream) s
      let s2 := { s1 with Streams := s1.Streams.delete cs.StreamIdx }
      match lib.StreamReset s stream with
      | some err => .ret (.error (badp2p err)) s2
      | none => .ret (.ok (.str "resetStream success")) s2
    | none => .ret (.error (badRPC (errors.New "unknown stream_idx"))) s

def sendStreamMsgMsg.run (lib : Lib) (cs : sendStreamMsgMsg) (s : app) : Res Result :=
  match s.P2p with
  | none => .ret (.error needsConfigure) s
  | some _ =>
    match codaDecode cs.Data with
    | .error err => .ret (.error (badRPC err)) s
    | .ok data =>
      match s.Streams.lookup cs.StreamIdx with
      | some stream =>
        match lib.StreamWrite s stream data with
        | some err => .ret (.error (badp2p err)) (record (.StreamWrite stream data) s)
        | none =>
          .ret (.ok (.str "sendStreamMsg success")) (record (.StreamWrite stream data) s)
      | none => .ret (.error (badRPC (errors.New "unknown stream_idx"))) s

/-- The method `addStreamHandlerMsg.run`; the handler it installs (lines
664-679) runs when a stream comes in, and is `incomingStream`. -/
def addStreamHandlerMsg.run (_lib : Lib) (m : addStreamHandlerMsg) (s : app) : Res Result :=
  match s.P2p with
  | none => .ret (.error needsConfigure) s
  | some _ => .ret (.ok (.str "addStreamHandler success")) (record (.SetStreamHandler m.Protocol) s)

def removeStreamHandlerMsg.run (_lib : Lib) (rs : removeStreamHandlerMsg) (s : app) :
    Res Result :=
  match s.P2p with
  | none => .ret (.error needsConfigure) s
  | some _ =>
    .ret (.ok (.str "removeStreamHandler success")) (record (.RemoveStreamHandler rs.Protocol) s)

def addPeerMsg.run (lib : Lib) (ap : addPeerMsg) (s : app) : Res Result :=
  match s.P2p with
  | none => .ret (.error needsConfigure) s
  | some _ =>
    match lib.NewMultiaddr ap.Multiaddr with
    | .error err => .ret (.error (badRPC err)) s
    | .ok multiaddr =>
      match lib.AddrInfoFromP2pAddr multiaddr with
      | .error err => .ret (.error (badRPC err)) s
      | .ok info =>
        match lib.Connect s info with
        | some err => .ret (.error (badp2p err)) (record (.Connect info) s)
        | none => .ret (.ok (.str "addPeer success")) (record (.Connect info) s)

/-- The method `beginAdvertisingMsg.run`; the two discovery goroutines are
`Task.localDiscovery` and `Task.dhtDiscovery`. `Dht.Bootstrap` is called on the
pointer `app.P2p.Dht` with no nil check. -/
def beginAdvertisingMsg.run (lib : Lib) (_ap : beginAdvertisingMsg) (s : app) : Res Result :=
  match s.P2p with
  | none => .ret (.error needsConfigure) s
  | some p =>
    match lib.NewMdnsService s with
    | some err => .ret (.error err) (record .NewMdnsService s)
    | none =>
      let s1 := { record .NewMdnsService s with P2p := some { p with Mdns := true } }
      let s2 := record .RegisterNotifee s1
      if lib.NewRoutingDiscovery s2 = false then
        .ret (.error (errors.New "failed to create routing discovery"))
          (record .NewRoutingDiscovery s2)
      else
        let s3 := { record .NewRoutingDiscovery s2 with
          P2p := some { p with Mdns := true, Discovery := true, DiscoveredPeers := true } }
        let s4 := spawn .localDiscovery s3
        match lib.Bootstrap s4 with
        | .panics v => .panic v s4
        | .returns (some err) => .ret (.error (badp2p err)) (record .Bootstrap s4)
        | .returns none =>
          .ret (.ok (.str "beginAdvertising success"))
            (spawn .dhtDiscovery (record (.Advertise p.Rendezvous) (record .Bootstrap s4)))

def findPeerMsg.run (lib : Lib) (ap : findPeerMsg) (s : app) : Res Result :=
  match lib.IDB58Decode ap.PeerID with
  | .error err => .ret (.error err) s
  | .ok id =>
    (findPeerInfo lib id s).bind fun r s1 =>
      match r with
      | .error err => .ret (.error err) s1
      | .ok maybePeer => .ret (.ok (.peerInfo maybePeer)) s1

/-- The loop of `listPeersMsg.run` over the connections (lines 854-861). -/
def listPeersLoop (lib : Lib) : List Conn → List codaPeerInfo → app → Res (List codaPeerInfo)
  | [], peerInfos, s => .ret peerInfos s
  | conn :: rest, peerInfos, s =>
    (parseMultiaddrWithID lib conn.RemoteMultiaddr conn.RemotePeer s).bind fun r s1 =>
      match r with
      | .error err =>
        listPeersLoop lib rest peerInfos
          (logLine ("skipping maddr " ++ Multiaddr.String conn.RemoteMultiaddr
            ++ " because it failed to parse: " ++ err.Error) s1)
      | .ok maybePeer => listPeersLoop lib rest (peerInfos ++ [maybePeer]) s1

/-- The method `listPeersMsg.run`: `make([]codaPeerInfo, len(connsHere))` is a
slice of that many zero descriptors, to which the loop appends. -/
def listPeersMsg.run (lib : Lib) (_lp : listPeersMsg) (s : app) : Res Result :=
  match s.P2p with
  | none => .ret (.error needsConfigure) s
  | some p =>
    (listPeersLoop lib p.Conns
        (List.replicate p.Conns.length { Libp2pPort := 0, Host := "", PeerID := "" }) s).bind
      fun peerInfos s1 => .ret (.ok (.peerInfos peerInfos)) s1

def banIPMsg.run (lib : Lib) (ban : banIPMsg) (s : app) : Res Result :=
  match s.P2p with
  | none => .ret (.error needsConfigure) s
  | some p =>
    match lib.ParseIPTo4 ban.IP with
    | none => .ret (.error (badRPC (errors.New "unparsable IP or IPv6"))) s
    | some ip =>
      let ipnet : filter.IPNet := { Mask := IPv4Mask32, IP := ip }
      let currentAction := (p.Filters.ActionForFilter ipnet).1
      let isFromRule := (p.Filters.ActionForFilter ipnet).2
      let s1 := { s with
        P2p := some { p with Filters := p.Filters.AddFilter ipnet .ActionDeny } }
      if currentAction = .ActionDeny ∧ isFromRule = true then
        .ret (.ok (.str "banIP already banned")) s1
      else .ret (.ok (.str "banIP success")) s1

def unbanIPMsg.run (lib : Lib) (unban : unbanIPMsg) (s : app) : Res Result :=
  match s.P2p with
  | none => .ret (.error needsConfigure) s
  | some p =>
    match lib.ParseIPTo4 unban.IP with
    | none => .ret (.error (badRPC (errors.New "unparsable IP or IPv6"))) s
    | some ip =>
      let ipnet : filter.IPNet := { Mask := IPv4Mask32, IP := ip }
      let currentAction := (p.Filters.ActionForFilter ipnet).1
      let isFromRule := (p.Filters.ActionForFilter ipnet).2
      if isFromRule = false ∨ currentAction = .ActionAccept then
        .ret (.ok (.str "unbanIP not banned")) s
      else
        .ret (.ok (.str "unbanIP success"))
          { s with P2p := some { p with Filters := (p.Filters.RemoveLiteral ipnet).1 } }

/-- The call `msg.run(app)` on the request `msgHandlers` made for the method. -/
def run (lib : Lib) : (m : methodIdx) → Body m → app → Res Result
  | .configure, b => configureMsg.run lib b
  | .listen, b => listenMsg.run lib b
  | .publish, b => publishMsg.run lib b
  | .subscribe, b => subscribeMsg.run lib b
  | .unsubscribe, b => unsubscribeMsg.run lib b
  | .validationComplete, b => validationCompleteMsg.run lib b
  | .generateKeypair, b => generateKeypairMsg.run lib b
  | .openStream, b => openStreamMsg.run lib b
  | .closeStream, b => closeStreamMsg.run lib b
  | .resetStream, b => resetStreamMsg.run lib b
  | .sendStreamMsg, b => sendStreamMsgMsg.run lib b
  | .removeStreamHandler, b => removeStreamHandlerMsg.run lib b
  | .addStreamHandler, b => addStreamHandlerMsg.run lib b
  | .listeningAddrs, b => listeningAddrsMsg.run lib b
  | .addPeer, b => addPeerMsg.run lib b
  | .beginAdvertising, b => beginAdvertisingMsg.run lib b
  | .findPeer, b => findPeerMsg.run lib b
  | .listPeers, b => listPeersMsg.run lib b
  | .banIP, b => banIPMsg.run lib b
  | .unbanIP, b => unbanIPMsg.run lib b

/-! ## The tasks started by the handlers -/

/-- Where the topic validator stands after its first part: it has returned a
verdict, or it waits in the `select` of line 357 for the deadline or for a
verdict on its channel. -/
inductive ValidatorStep where
  | done (verdict : Bool)
  | waiting (seqno : Int) (ch : Chan)
  deriving DecidableEq, Repr

/-- The validator registered by `subscribeMsg.run`, from its call by pubsub
(for a message with payload `data` received from peer `id`) up to the `select`
(lines 330-355). `make(chan bool, 1)` is a new place in the heap of channels. -/
def topicValidator (lib : Lib) (subscription : Int) (id : PeerID) (data : List Byte)
    (s : app) : Res ValidatorStep :=
  let seqno := (takeSeq s).1
  let s1 := (takeSeq s).2
  let ch : Chan := s1.chans.length
  let s2 := { s1 with chans := s1.chans ++ [none], Validators := s1.Validators.insert seqno ch }
  match s2.P2p with
  | none => .panic nilDeref s2
  | some p =>
    if id = p.Me then .ret (.done true) s2
    else
      (findPeerInfo lib id s2).bind fun r s3 =>
        match r with
        | .error _ =>
          if s3.UnsafeNoTrustIP = false then
            .ret (.done false)
              { logLine ("failed to connect to peer " ++ lib.IDB58Encode id
                  ++ " that just sent us a pubsub message, dropping it") s3 with
                Validators := s3.Validators.delete seqno }
          else
            .ret (.waiting seqno ch)
              (writeMsg (.validateUpcall none (codaEncode data) seqno "validate" subscription) s3)
        | .ok sender =>
          .ret (.waiting seqno ch)
            (writeMsg (.validateUpcall (some sender) (codaEncode data) seqno "validate"
              subscription) s3)

/-- What ends the wait of a validator: the deadline of its context, or a
verdict in its channel. -/
inductive ValidatorEvent where
  | deadline
  | verdict
  deriving DecidableEq, Repr

/-- The `select` of the validator (lines 357-373) on the event that ends it;
the case `verdict` receives from the channel, and has to wait while the slot is
empty. -/
def validatorSelect (ev : ValidatorEvent) (ch : Chan) (s : app) : Res Bool :=
  match ev with
  | .deadline =>
    match s.P2p with
    | none => .panic nilDeref s
    | some _ => .ret s.UnsafeNoTrustIP (logLine "validation timed out :(" s)
  | .verdict =>
    match s.chans.get? ch with
    | some (some res) =>
      if res = false then
        match s.P2p with
        | none => .panic nilDeref { s with chans := s.chans.set ch none }
        | some _ =>
          .ret res (logLine "why u fail to validate :(" { s with chans := s.chans.set ch none })
      else .ret res { s with chans := s.chans.set ch none }
    | _ => .block s

/-- One turn of the delivery goroutine of a subscription (lines 393-406) on a
message that `sub.Next` returned. -/
def deliver (lib : Lib) (subscription : Int) (receivedFrom : PeerID) (data : List Byte)
    (s : app) : Res Unit :=
  (findPeerInfo lib receivedFrom s).bind fun r s1 =>
    match r with
    | .error _ =>
      if s1.UnsafeNoTrustIP = false then
        match s1.P2p with
        | none => .panic nilDeref s1
        | some _ =>
          .ret () (logLine ("failed to connect to peer " ++ lib.IDB58Encode receivedFrom
            ++ " that just sent us an already-validated pubsub message, dropping it") s1)
      else .ret () (writeMsg (.publishUpcall "publish" subscription (codaEncode data) none) s1)
    | .ok sender =>
      .ret () (writeMsg (.publishUpcall "publish" subscription (codaEncode data) (some sender)) s1)

/-- The stream handler installed by `addStreamHandlerMsg.run` (lines 664-679),
on a stream that came in for the protocol. -/
def incomingStream (lib : Lib) (protocol : String) (stream : Stream) (s : app) : Res Unit :=
  (parseMultiaddrWithID lib stream.Conn.RemoteMultiaddr stream.Conn.RemotePeer s).bind
    fun r s1 =>
      match r with
      | .error err =>
        match s1.P2p with
        | none => .panic nilDeref s1
        | some _ =>
          .ret () (logLine
            ("failed to parse remote connection information, silently dropping stream: "
              ++ err.Error) s1)
      | .ok peerinfo =>
        let streamIdx := (takeSeq s1).1
        let s2 := (takeSeq s1).2
        let s3 := { s2 with Streams := s2.Streams.insert streamIdx stream }
        .ret () (handleStreamReads stream streamIdx
          (writeMsg (.incomingStreamUpcall "incomingStream" peerinfo streamIdx protocol) s3))

/-- What one `stream.Read(buf)` returned: the bytes `buf[:len]` it put in the
buffer and its error. -/
structure ReadResult where
  data : List Byte
  err : Option GoError
  deriving DecidableEq, Repr

/-- The read task (lines 516-546) on the results of its reads, in order. A
task whose reads have all returned without an error waits for the next one. -/
def streamReads (idx : Int) : List ReadResult → app → Res Unit
  | [], s => .block s
  | r :: rest, s =>
    let s1 :=
      if r.data.length ≠ 0 then
        writeMsg (.incomingMsgUpcall "incomingStreamMsg" idx (codaEncode r.data)) s
      else s
    match r.err with
    | none => streamReads idx rest s1
    | some err =>
      if err ≠ .EOF then
        .ret () (writeMsg (.streamReadCompleteUpcall "streamReadComplete" idx)
          (writeMsg (.streamLostUpcall "streamLost" idx ("read failure: " ++ err.Error)) s1))
      else .ret () (writeMsg (.streamReadCompleteUpcall "streamReadComplete" idx) s1)

/-! ## The dispatcher (main.go, lines 984-1018) -/

/-- How `main` ends. -/
inductive Ending where
  /-- The input is closed: `os.Exit(0)` after the loop. -/
  | exit
  /-- The call `log.Fatal` of line 992 or 997: the process exits at once. -/
  | fatal (err : GoError)
  /-- A panic was recovered by the deferred function that `line` installed:
  the function logs it and `main`, whose frame the panic unwound, returns. -/
  | recovered (line : String) (v : String)
  /-- A panic with no deferred function to recover it. -/
  | crashed (v : String)
  /-- The handler never returns. -/
  | blocked
  /-- The scanner met a line of `MaxScanTokenSize` bytes or more: `Scan` returns
  false for good, the loop ends and `os.Exit(0)` follows as on a closed input
  (`lines.Err()` is never read). -/
  | tooLong
  deriving DecidableEq, Repr

/-- One turn of the loop: it goes on in a new state with one more deferred
function, or `main` ends. -/
inductive Turn where
  | next (deferred : List String) (s : app)
  | stop (e : Ending) (s : app)
  deriving DecidableEq, Repr

/-- The response to a request whose handler returned (lines 1006-1015). -/
def respond (lib : Lib) (env : envelope) (res : Result) (s : app) : app :=
  match res with
  | .ok v =>
    match jsonMarshal v with
    | .ok raw => writeMsg (.successResult env.Seqno raw (lib.elapsed s)) s
    | .error err => writeMsg (.errorResult env.Seqno err.Error) s
  | .error err => writeMsg (.errorResult env.Seqno err.Error) s

/-- A panic in the frame of `main`: the deferred functions run, last first;
the first of them recovers the panic and logs it with the line it was installed
for, the others find nothing to recover, and `main` returns. With no deferred
function the process crashes. -/
def unwind (deferred : List String) (v : String) (s : app) : Turn :=
  match deferred with
  | [] => .stop (.crashed v) s
  | line :: _ =>
    .stop (.recovered line v)
      (logLine ("While handling RPC:" ++ line ++ "\nThe following panic occurred: " ++ v) s)

/-- The body of the loop for one line of input (lines 985-1015). `deferred`
holds the lines of the deferred functions installed so far, the last first:
`defer` in the body of the loop defers to the return of `main`, not to the end
of the turn. An unknown method has no entry in `msgHandlers`, and calling the
nil function it yields panics. -/
def mainTurn (lib : Lib) (line : String) (deferred : List String) (s : app) : Turn :=
  match lib.unmarshalEnvelope line with
  | .error err => .stop (.fatal err) (logLine "when unmarshaling the envelope..." s)
  | .ok env =>
    match methodIdx.ofInt env.Method with
    | none => unwind deferred nilDeref s
    | some m =>
      match lib.unmarshalBody m env.Body with
      | .error err =>
        .stop (.fatal err) (logLine "when unmarshaling the method invocation..." s)
      | .ok msg =>
        match run lib m msg s with
        | .ret res s1 => .next (line :: deferred) (respond lib env res s1)
        | .panic v s1 => unwind (line :: deferred) v s1
        | .block s1 => .stop .blocked s1

/-- `bufio.MaxScanTokenSize`, the size the buffer of a `bufio.Scanner` grows
to when `Buffer` has not been called, as in `main` (line 971). -/
def MaxScanTokenSize : Nat := 65536

/-- `dropCR` of `bufio`: the data without its last byte when that byte is a
carriage return. -/
def dropCR (data : String) : String :=
  if data.data.getLast? = some '\r' then String.mk data.data.dropLast else data

/-- The loop of `main` over the input, `for lines.Scan()` (line 984), the input
given as the list of its lines, each the bytes up to the next line feed. The
scanner hands on a line that fits in its buffer together with the line feed,
so one of fewer than `MaxScanTokenSize` bytes, and `lines.Text()` is that line
after `dropCR`; on a longer line `Scan` returns false and the loop ends, the
lines after it unread. -/
def mainLoop (lib : Lib) : List String → List String → app → Ending × app
  | [], _, s => (.exit, s)
  | line :: rest, deferred, s =>
    if line.utf8ByteSize < MaxScanTokenSize then
      match mainTurn lib (dropCR line) deferred s with
      | .next deferred1 s1 => mainLoop lib rest deferred1 s1
      | .stop e s1 => (e, s1)
    else (.tooLong, s)

/-- The function `main` on the lines of its input: the way it ends and the
final state, whose `Out` is everything written to the parent. -/
def main (lib : Lib) (lines : List String) : Ending × app := mainLoop lib lines [] app.init

/-! ## A library and a few states to run the program on -/

/-- The body of a `configure` request. -/
def bodyConfigure : String :=
  "\x7b\"statedir\":\"/tmp/coda\",\"privk\":\"\",\"network_id\":\"testnet\",\"ifaces\":[],\"external_maddr\":\"/ip4/10.0.0.2/tcp/8302\",\"unsafe_no_trust_ip\":false\x7d"

/-- The body of a `findPeer` request whose peer identifier is not base-58. -/
def bodyFindPeer : String := "\x7b\"peer_id\":\"0OIl\"\x7d"

/-- The body of the `publish` request of the cold-start scenario. -/
def bodyPublish : String := "\x7b\"topic\":\"t\",\"data\":\"AA==\"\x7d"

/-- The request line of a method number, a sequence number and a body. -/
def requestLine (method seqno : Nat) (body : String) : String :=
  "\x7b\"method\":" ++ toString method ++ ",\"seqno\":" ++ toString seqno ++ ",\"body\":"
    ++ body ++ "\x7d"

/-- The line `configure`, sequence number 1. -/
def lineConfigure : String := requestLine 0 1 bodyConfigure

/-- The line `beginAdvertising`, sequence number 2. -/
def lineBeginAdvertising : String := requestLine 15 2 "\x7b\x7d"

/-- The line `listeningAddrs`, sequence number 3. -/
def lineListeningAddrs : String := requestLine 13 3 "\x7b\x7d"

/-- The line `findPeer` of an identifier that is not base-58, sequence number 1. -/
def lineFindPeer : String := requestLine 16 1 bodyFindPeer

/-- The line `publish` of the cold-start scenario, sequence number 1. -/
def linePublish : String := requestLine 2 1 bodyPublish

/-- The line `publish` again, sequence number 2. -/
def linePublish2 : String := requestLine 2 2 bodyPublish

/-- The multiaddress `/ip4/10.0.0.2/tcp/8302`. -/
def demoMaddr : Multiaddr :=
  [{ protocol := { Name := "ip4", Code := P_IP4 }, value := "10.0.0.2" },
   { protocol := { Name := "tcp", Code := P_TCP }, value := "8302" }]

/-- A helper as `codanet.MakeHelper` may return it: no DHT yet, an empty filter
table that accepts by default, no connection. -/
def demoHelper : Helper :=
  { Me := "me", Dht := false,
    Filters := { DefaultAction := .ActionAccept, filters := [] },
    Rendezvous := "/coda/0.0.1", Conns := [], Addrs := [demoMaddr],
    Mdns := false, Discovery := false, DiscoveredPeers := false }

/-- The envelopes of the request lines above; any other line is no JSON. -/
def demoEnvelope (line : String) : Except GoError envelope :=
  if line = lineConfigure then .ok { Method := 0, Seqno := 1, Body := bodyConfigure }
  else if line = lineBeginAdvertising then .ok { Method := 15, Seqno := 2, Body := "\x7b\x7d" }
  else if line = lineListeningAddrs then .ok { Method := 13, Seqno := 3, Body := "\x7b\x7d" }
  else if line = lineFindPeer then .ok { Method := 16, Seqno := 1, Body := bodyFindPeer }
  else if line = linePublish then .ok { Method := 2, Seqno := 1, Body := bodyPublish }
  else if line = linePublish2 then .ok { Method := 2, Seqno := 2, Body := bodyPublish }
  else .error (.errorString "unexpected end of JSON input")

/-- The requests of the bodies above; any other body is read as the empty
object, which leaves every field of the request at its zero value. -/
def demoBody : (m : methodIdx) → String → Except GoError (Body m)
  | .configure, raw =>
    if raw = bodyConfigure then
      .ok { Statedir := "/tmp/coda", Privk := "", NetworkID := "testnet", ListenOn := [],
            External := "/ip4/10.0.0.2/tcp/8302", UnsafeNoTrustIP := false }
    else
      .ok { Statedir := "", Privk := "", NetworkID := "", ListenOn := [], External := "",
            UnsafeNoTrustIP := false }
  | .listen, _ => .ok { Iface := "" }
  | .publish, raw =>
    if raw = bodyPublish then .ok { Topic := "t", Data := "AA==" }
    else .ok { Topic := "", Data := "" }
  | .subscribe, _ => .ok { Topic := "", Subscription := 0 }
  | .unsubscribe, _ => .ok { Subscription := 0 }
  | .validationComplete, _ => .ok { Seqno := 0, Valid := false }
  | .generateKeypair, _ => .ok {}
  | .openStream, _ => .ok { Peer := "", ProtocolID := "" }
  | .closeStream, _ => .ok { StreamIdx := 0 }
  | .resetStream, _ => .ok { StreamIdx := 0 }
  | .sendStreamMsg, _ => .ok { StreamIdx := 0, Data := "" }
  | .removeStreamHandler, _ => .ok { Protocol := "" }
  | .addStreamHandler, _ => .ok { Protocol := "" }
  | .listeningAddrs, _ => .ok {}
  | .addPeer, _ => .ok { Multiaddr := "" }
  | .beginAdvertising, _ => .ok {}
  | .findPeer, raw =>
    if raw = bodyFindPeer then .ok { PeerID := "0OIl" } else .ok { PeerID := "" }
  | .listPeers, _ => .ok {}
  | .banIP, _ => .ok { IP := "" }
  | .unbanIP, _ => .ok { IP := "" }

/-- A library whose calls all succeed, with these answers: the text `0OIl` is
no base-58 (none of its characters is in the alphabet), every other text is the
peer identifier it names; every multiaddress is `demoMaddr`; the only text that
parses as an IPv4 address is `10.0.0.1`; `MakeHelper` returns `demoHelper`;
`Bootstrap` on a nil DHT dereferences the pointer and panics. -/
def demoLib : Lib :=
  { unmarshalEnvelope := demoEnvelope
    unmarshalBody := demoBody
    elapsed := fun _ => "1ms"
    IDB58Decode := fun str =>
      if str = "0OIl" then .error (.errorString "invalid base58 digit ('0')") else .ok str
    IDB58Encode := fun id => id
    NewMultiaddr := fun _ => .ok demoMaddr
    AddrInfoFromP2pAddr := fun ma => .ok { ID := "peer", Addrs := [ma] }
    UnmarshalPrivateKey := fun bytes => .ok ⟨bytes⟩
    MarshalPrivateKey := fun k => .ok k.raw
    MarshalPublicKey := fun k => .ok k.raw
    IDFromPublicKey := fun _ => .ok "peer"
    ParseIPTo4 := fun str => if str = "10.0.0.1" then some [10, 0, 0, 1] else none
    MakeHelper := fun _ _ _ _ _ _ => .ok demoHelper
    Listen := fun _ ma => .ok [ma]
    Publish := fun _ _ _ => none
    RegisterTopicValidator := fun _ _ => none
    Subscribe := fun s _ => .ok s.calls.length
    GenerateEd25519Key := fun _ => .ok (⟨[1]⟩, ⟨[2]⟩)
    NewStream := fun s peer _ =>
      .ok { id := s.calls.length, Conn := { RemoteMultiaddr := demoMaddr, RemotePeer := peer } }
    StreamClose := fun _ _ => none
    StreamReset := fun _ _ => none
    StreamWrite := fun _ _ _ => none
    Connect := fun _ _ => none
    NewMdnsService := fun _ => none
    NewRoutingDiscovery := fun _ => true
    Bootstrap := fun s =>
      match s.P2p with
      | some p => if p.Dht = true then .returns none else .panics nilDeref
      | none => .panics nilDeref }

/-- The state after a `configure` that returned `demoHelper`. -/
def demoApp : app := { app.init with P2p := some demoHelper }

/-- The state `demoApp` with a DHT. -/
def demoAppDht : app := { app.init with P2p := some { demoHelper with Dht := true } }

/-- The state `demoApp` with `unsafe_no_trust_ip` set. -/
def demoAppUnsafe : app := { demoApp with UnsafeNoTrustIP := true }

/-- The state in which the topic validator of subscription 7 waits for the
verdict on a message `hi` from the peer `peer`: seqno 0, channel 0. -/
def demoWaiting : app := (topicValidator demoLib 7 "peer" [104, 105] demoAppUnsafe).state

/-- The state after `subscribe` of topic `t` with index 7 in `demoAppDht`. -/
def demoSubscribed : app :=
  (subscribeMsg.run demoLib { Topic := "t", Subscription := 7 } demoAppDht).state

/-- The multiaddress `/ip4/10.0.0.3/udp/4001`, which is not TCP. -/
def demoUdpMaddr : Multiaddr :=
  [{ protocol := { Name := "ip4", Code := P_IP4 }, value := "10.0.0.3" },
   { protocol := { Name := "udp", Code := 273 }, value := "4001" }]

/-- The state `demoApp` with two connections: one over TCP to `peerA`, whose
address gives a peer descriptor, and one over UDP to `peerB`, whose address
gives none. -/
def demoAppConns : app :=
  { app.init with
    P2p := some { demoHelper with
      Conns := [{ RemoteMultiaddr := demoMaddr, RemotePeer := "peerA" },
                { RemoteMultiaddr := demoUdpMaddr, RemotePeer := "peerB" }] } }

/-- A stream to the peer `peerA`. -/
def demoStream : Stream :=
  { id := 0, Conn := { RemoteMultiaddr := demoMaddr, RemotePeer := "peerA" } }

/-- The state `demoApp` with `demoStream` in the stream registry under the
index 0. -/
def demoAppStream : app := { demoApp with Streams := GoMap.empty.insert 0 demoStream }

/-- The payload of a long `publish` request: 65536 characters `A`, the base-64
of 49152 zero bytes. -/
def longData : String := String.mk (List.replicate 65536 'A')

/-- The body of the long `publish` request. -/
def longBody : String := "\x7b\"topic\":\"t\",\"data\":\"" ++ longData ++ "\"\x7d"

/-- The line `publish` of topic `t` with the payload `longData`, sequence
number 1: a line of more than 64 KiB. -/
def longLine : String := requestLine 2 1 longBody

/-- The requests of `demoBody`, and the long `publish` request of `longBody`. -/
def longBodyOf : (m : methodIdx) → String → Except GoError (Body m)
  | .publish, raw =>
    if raw = longBody then .ok { Topic := "t", Data := longData } else demoBody .publish raw
  | m, raw => demoBody m raw

/-- The library `demoLib`, whose JSON decoder reads the line `longLine` too. -/
def longLib : Lib :=
  { demoLib with
    unmarshalEnvelope := fun line =>
      if line = longLine then .ok { Method := 2, Seqno := 1, Body := longBody }
      else demoEnvelope line
    unmarshalBody := longBodyOf }

/-! ## The states the process reaches -/

/-- The validator registry is in order: every channel it holds has been made
and its slot is free, and no channel is held under two seqnos. -/
def ValidatorsFree (s : app) : Prop :=
  (∀ n ch, s.Validators.lookup n = some ch → s.chans.get? ch = some none) ∧
  (∀ n n' ch, s.Validators.lookup n = some ch → s.Validators.lookup n' = some ch → n = n')

/-- One step of the process: the dispatcher handles a request and responds; a
topic validator is called and runs up to its `select`; a `select` ends; a
delivery goroutine hands on a message; a stream comes in; a read task runs to
its end; or the network changes the connections and addresses of the host. -/
inductive Step (lib : Lib) : app → app → Prop where
  | request (env : envelope) (m : methodIdx) (b : Body m) (s : app) (res : Result) (s1 : app) :
      run lib m b s = .ret res s1 → Step lib s (respond lib env res s1)
  | validator (subscription : Int) (id : PeerID) (data : List Byte) (s : app)
      (st : ValidatorStep) (s1 : app) :
      topicValidator lib subscription id data s = .ret st s1 → Step lib s s1
  | select (ev : ValidatorEvent) (ch : Chan) (s : app) (v : Bool) (s1 : app) :
      validatorSelect ev ch s = .ret v s1 → Step lib s s1
  | delivery (subscription : Int) (receivedFrom : PeerID) (data : List Byte) (s s1 : app) :
      deliver lib subscription receivedFrom data s = .ret () s1 → Step lib s s1
  | incoming (protocol : String) (stream : Stream) (s s1 : app) :
      incomingStream lib protocol stream s = .ret () s1 → Step lib s s1
  | reads (idx : Int) (rs : List ReadResult) (s s1 : app) :
      streamReads idx rs s = .ret () s1 → Step lib s s1
  | network (s : app) (h : Helper) (conns : List Conn) (addrs : List Multiaddr) :
      s.P2p = some h →
      Step lib s { s with P2p := some { h with Conns := conns, Addrs := addrs } }

/-- The states the process reaches from the state `main` starts in. -/
inductive Reachable (lib : Lib) : app → Prop where
  | init : Reachable lib app.init
  | step (s s1 : app) : Reachable lib s → Step lib s s1 → Reachable lib s1

/-! ## Lemmas on maps and on the generator -/

theorem GoMap.lookupList_filter {α : Type} (l : List (Int × α)) (n k : Int) :
    GoMap.lookupList (l.filter (fun p => p.1 ≠ n)) k =
      if k = n then none else GoMap.lookupList l k := by
  induction l with
  | nil => simp [GoMap.lookupList]
  | cons p l ih =>
    obtain ⟨k', v⟩ := p
    by_cases h : k' = n
    · subst h
      simp only [List.filter, ne_eq, not_true_eq_false, decide_False, GoMap.lookupList]
      rw [show (List.filter (fun p : Int × α => decide (¬ p.1 = k')) l)
        = List.filter (fun p => p.1 ≠ k') l from rfl, ih]
      by_cases hk : k = k'
      · simp [hk]
      · simp [hk, Ne.symm hk]
    · have : decide (¬ k' = n) = true := by simp [h]
      simp only [List.filter, ne_eq, this, GoMap.lookupList]
      rw [show (List.filter (fun p : Int × α => decide (¬ p.1 = n)) l)
        = List.filter (fun p => p.1 ≠ n) l from rfl, ih]
      by_cases hk : k' = k
      · subst hk; simp [h]
      · simp [hk]

theorem GoMap.lookup_delete {α : Type} (m : GoMap α) (n k : Int) :
    (m.delete n).lookup k = if k = n then none else m.lookup k := by
  simp only [GoMap.lookup, GoMap.delete]
  exact GoMap.lookupList_filter m.entries n k

theorem GoMap.lookup_insert {α : Type} (m : GoMap α) (n k : Int) (v : α) :
    (m.insert n v).lookup k = if k = n then some v else m.lookup k := by
  simp only [GoMap.lookup, GoMap.insert, GoMap.lookupList, GoMap.delete]
  by_cases h : n = k
  · subst h; simp
  · rw [GoMap.lookupList_filter]
    simp [h, Ne.symm h]

theorem wrapInt64_of_range (x : Int) (h1 : -9223372036854775808 ≤ x)
    (h2 : x < 9223372036854775808) : wrapInt64 x = x := by
  unfold wrapInt64; omega

theorem wrapInt64_succ (x : Int) : wrapInt64 (wrapInt64 x + 1) = wrapInt64 (x + 1) := by
  unfold wrapInt64; omega

/-- The value the `k`-th taker gets is the 64-bit wrap of `i + k`. -/
theorem seqsTaken_getElem (n k : Nat) (i : Int) (h : k < n) :
    (seqsTaken n (wrapInt64 i))[k]? = some (wrapInt64 (i + k)) := by
  induction n generalizing k i with
  | zero => omega
  | succ n ih =>
    cases k with
    | zero => simp [seqsTaken, seqsTurn]
    | succ k =>
      simp only [seqsTaken, seqsTurn, List.getElem?_cons_succ]
      rw [wrapInt64_succ, ih k (i + 1) (by omega)]
      congr 2
      push_cast; ring

/-! ## The error texts -/

/-- Claim C4, on the code: the text of `badRPC e` is the tag `internal RPC error`,
then ` error: ` from the format of `wrappedError.Error`, then the text of `e`, so
the word `error` stands twice; the two guard failures read
`internal RPC error error: helper not yet configured` and
`internal RPC error error: helper not yet joined to pubsub`, `publish` returns
the first with no helper and the second with a helper that has no DHT, and
neither is the text without the doubled word. -/
theorem badRPC_text_doubles_error :
    (∀ e : GoError, (badRPC e).Error = "internal RPC error error: " ++ e.Error) ∧
    needsConfigure.Error = "internal RPC error error: helper not yet configured" ∧
    needsDHT.Error = "internal RPC error error: helper not yet joined to pubsub" ∧
    publishMsg.run demoLib { Topic := "t", Data := "AA==" } app.init
      = .ret (.error needsConfigure) app.init ∧
    publishMsg.run demoLib { Topic := "t", Data := "AA==" } demoApp
      = .ret (.error needsDHT) demoApp ∧
    needsConfigure.Error ≠ "internal RPC error: helper not yet configured" ∧
    needsDHT.Error ≠ "internal RPC error: helper not yet joined to pubsub" := by
  refine ⟨fun e => ?_, by decide, by decide, rfl, rfl, by decide, by decide⟩
  simp only [badRPC, wrapError, GoError.Error]
  rw [show ("internal RPC error error: " : String) = "internal RPC error" ++ " error: "
    from by decide]

/-! ## The sequence generator -/

/-- Claim C8, as amended: for every `k` below `2^63`, the `k`-th value taken
from the sequence generator (counting from zero, over all takers) equals `k`. -/
theorem seqs_kth_value (n k : Nat) (hk : k < n) (hb : k < 9223372036854775808) :
    (seqsTaken n 0)[k]? = some (k : Int) := by
  have h := seqsTaken_getElem n k 0 hk
  rw [wrapInt64_of_range 0 (by omega) (by omega)] at h
  rw [h, wrapInt64_of_range _ (by omega) (by omega)]
  simp

/-- Claim C8, witness: the value of index 3 among the first five. -/
theorem seqs_kth_value_witness :
    3 < 5 ∧ 3 < 9223372036854775808 ∧ (seqsTaken 5 0)[3]? = some ((3 : Nat) : Int) :=
  ⟨by decide, by decide, seqs_kth_value 5 3 (by decide) (by decide)⟩

/-- Claim C8, counterexample: the value of index `2^63` is `-2^63`, the loop
variable having wrapped around, and not `2^63`. -/
theorem seqs_value_wraps :
    (seqsTaken 9223372036854775809 0)[9223372036854775808]? = some (-9223372036854775808) ∧
    (seqsTaken 9223372036854775809 0)[9223372036854775808]?
      ≠ some (((9223372036854775808 : Nat) : Int)) := by
  have h := seqsTaken_getElem 9223372036854775809 9223372036854775808 0 (by omega)
  rw [wrapInt64_of_range 0 (by omega) (by omega)] at h
  rw [h]
  decide

/-! ## The read task -/

/-- Claim C7: on the read results `pre ++ [last]` of a stream, where no read of
`pre` returned an error and `last` returned the error `e`, the read task writes,
after what was written before: one `incomingStreamMsg` upcall for each read that
returned bytes, in read order, with the base-64 of those bytes; then one
`streamLost` upcall if and only if `e` is not end-of-input; then one
`streamReadComplete` upcall, the last; and it returns. -/
theorem streamReads_upcalls (idx : Int) (pre : List ReadResult) (last : ReadResult)
    (e : GoError) (s : app) (hpre : ∀ r ∈ pre, r.err = none) (hlast : last.err = some e) :
    streamReads idx (pre ++ [last]) s = .ret ()
      { s with
        Out := s.Out
          ++ ((pre ++ [last]).filter (fun r => r.data.length ≠ 0)).map
              (fun r => Msg.incomingMsgUpcall "incomingStreamMsg" idx (codaEncode r.data))
          ++ (if e = .EOF then []
              else [Msg.streamLostUpcall "streamLost" idx ("read failure: " ++ e.Error)])
          ++ [Msg.streamReadCompleteUpcall "streamReadComplete" idx] } := by
  induction pre generalizing s with
  | nil =>
    simp only [List.nil_append, streamReads, hlast]
    by_cases hd : last.data.length = 0 <;> by_cases he : e = .EOF <;>
      simp [hd, he, writeMsg, List.filter]
  | cons r pre ih =>
    have hr : r.err = none := hpre r (List.mem_cons_self _ _)
    simp only [List.cons_append, streamReads, hr, List.append_eq]
    rw [ih _ (fun x hx => hpre x (List.mem_cons_of_mem _ hx))]
    by_cases hd : r.data.length = 0 <;> simp [hd, writeMsg, List.filter]

/-- Claim C7, witness: a read of two bytes, an empty read, then a read of one
byte that fails with a reset: two data upcalls (`aGk=` and `IQ==`), the
`streamLost` upcall and the `streamReadComplete` upcall, in this order. -/
theorem streamReads_upcalls_witness :
    (∀ r ∈ [(⟨[104, 105], none⟩ : ReadResult), ⟨[], none⟩], r.err = none) ∧
    streamReads 3 ([⟨[104, 105], none⟩, ⟨[], none⟩]
        ++ [⟨[33], some (.errorString "stream reset")⟩]) app.init
      = .ret ()
        { app.init with
          Out := [Msg.incomingMsgUpcall "incomingStreamMsg" 3 "aGk=",
                  Msg.incomingMsgUpcall "incomingStreamMsg" 3 "IQ==",
                  Msg.streamLostUpcall "streamLost" 3 "read failure: stream reset",
                  Msg.streamReadCompleteUpcall "streamReadComplete" 3] } :=
  ⟨by decide,
   streamReads_upcalls 3 [⟨[104, 105], none⟩, ⟨[], none⟩]
     ⟨[33], some (.errorString "stream reset")⟩ (.errorString "stream reset") app.init
     (by decide) rfl⟩

/-! ## What the handlers leave alone -/

theorem parseMultiaddrWithID_state (lib : Lib) (ma : Multiaddr) (id : PeerID) (s : app) :
    (parseMultiaddrWithID lib ma id s).state = s := by
  unfold parseMultiaddrWithID
  repeat' split
  all_goals rfl

theorem findPeerInfo_Out (lib : Lib) (id : PeerID) (s : app) :
    (findPeerInfo lib id s).state.Out = s.Out := by
  unfold findPeerInfo
  repeat' split
  all_goals first
    | rfl
    | rw [parseMultiaddrWithID_state]

theorem Res.bind_state_Out {α β : Type} (r : Res α) (f : α → app → Res β) (o : List Msg)
    (hr : r.state.Out = o) (hf : ∀ a s, s.Out = o → (f a s).state.Out = o) :
    (r.bind f).state.Out = o := by
  cases r with
  | ret a s => exact hf a s hr
  | panic v s => exact hr
  | block s => exact hr

theorem listPeersLoop_Out (lib : Lib) (conns : List Conn) (acc : List codaPeerInfo) (s : app) :
    (listPeersLoop lib conns acc s).state.Out = s.Out := by
  induction conns generalizing acc s with
  | nil => rfl
  | cons c rest ih =>
    unfold listPeersLoop
    apply Res.bind_state_Out
    · rw [parseMultiaddrWithID_state]
    · intro a s1 h1
      cases a with
      | error err => simp only []; rw [ih]; exact h1
      | ok p => simp only []; rw [ih]; exact h1

theorem chanSend_some (ch : Chan) (v : Bool) (s s1 : app) (h : chanSend ch v s = some s1) :
    s.chans.get? ch = some none ∧ s1 = { s with chans := s.chans.set ch (some v) } := by
  unfold chanSend at h
  split at h
  · rename_i heq
    exact ⟨heq, (Option.some.inj h).symm⟩
  · exact absurd h (by simp)

theorem run_Out (lib : Lib) (m : methodIdx) (b : Body m) (s : app) :
    (run lib m b s).state.Out = s.Out := by
  cases m
  case openStream =>
    simp only [run, openStreamMsg.run]
    split
    · rfl
    · split
      · rfl
      · split
        · rfl
        · apply Res.bind_state_Out
          · rw [parseMultiaddrWithID_state]; rfl
          · intro a s1 h1
            cases a <;> exact h1
  case findPeer =>
    simp only [run, findPeerMsg.run]
    split
    · rfl
    · apply Res.bind_state_Out
      · exact findPeerInfo_Out _ _ _
      · intro a s1 h1
        cases a <;> exact h1
  case validationComplete =>
    simp only [run, validationCompleteMsg.run]
    repeat' split
    all_goals first
      | rfl
      | (rename_i h; rw [(chanSend_some _ _ _ _ h).2]; rfl)
  case listPeers =>
    simp only [run, listPeersMsg.run]
    split
    · rfl
    · apply Res.bind_state_Out
      · exact listPeersLoop_Out _ _ _ _
      · intro a s1 h1; exact h1
  all_goals
    simp only [run, configureMsg.run, listenMsg.run, listeningAddrsMsg.run, publishMsg.run,
      subscribeMsg.run, unsubscribeMsg.run, validationCompleteMsg.run, generateKeypairMsg.run,
      closeStreamMsg.run, resetStreamMsg.run, sendStreamMsgMsg.run, addStreamHandlerMsg.run,
      removeStreamHandlerMsg.run, addPeerMsg.run, beginAdvertisingMsg.run, banIPMsg.run,
      unbanIPMsg.run]
    repeat' split
    all_goals rfl
/-! ## The dispatcher -/

/-- The body of the loop on a line that parses to the envelope `env` and to a
request of its method, and whose handler returns (`res`, in state `s1`): it
writes exactly one message, after what was written before, the success
response for a result and the error response for an error, with the sequence
number of the envelope. -/
theorem mainTurn_one_response (lib : Lib) (line : String) (deferred : List String) (s : app)
    (env : envelope) (m : methodIdx) (msg : Body m) (res : Result) (s1 : app)
    (henv : lib.unmarshalEnvelope line = .ok env)
    (hm : methodIdx.ofInt env.Method = some m)
    (hbody : lib.unmarshalBody m env.Body = .ok msg)
    (hrun : run lib m msg s = .ret res s1) :
    mainTurn lib line deferred s = .next (line :: deferred)
      { s1 with
        Out := s.Out ++
          [match res with
           | .ok v => Msg.successResult env.Seqno ⟨v⟩ (lib.elapsed s1)
           | .error err => Msg.errorResult env.Seqno err.Error] } ∧
    (match res with
     | .ok v => Msg.successResult env.Seqno ⟨v⟩ (lib.elapsed s1)
     | .error err => Msg.errorResult env.Seqno err.Error).responseSeqno = some env.Seqno := by
  have hout : s1.Out = s.Out := by
    have := run_Out lib m msg s
    rw [hrun] at this
    exact this
  constructor
  · simp only [mainTurn, henv, hm, hbody, hrun]
    cases res with
    | ok v => simp [respond, jsonMarshal, writeMsg, hout]
    | error err => simp [respond, writeMsg, hout]
  · cases res <;> rfl

/-- The number of bytes of two texts put together. -/
theorem utf8ByteSize_append (a b : String) :
    (a ++ b).utf8ByteSize = a.utf8ByteSize + b.utf8ByteSize := by
  cases a with
  | mk x =>
    cases b with
    | mk y =>
      show String.utf8ByteSize ⟨x ++ y⟩ = _
      simp only [String.utf8ByteSize_mk, String.utf8Len_append]

/-- The number of bytes of `n` characters `A`. -/
theorem utf8ByteSize_replicate (n : Nat) :
    (String.mk (List.replicate n 'A')).utf8ByteSize = n := by
  induction n with
  | zero => rfl
  | succ n ih =>
    simp only [String.utf8ByteSize_mk] at ih ⊢
    rw [List.replicate_succ, String.utf8Len_cons, ih]
    rfl

/-- The body `longBody` is of more than 64 KiB. -/
theorem longBody_too_long : MaxScanTokenSize ≤ longBody.utf8ByteSize := by
  simp only [longBody, longData, utf8ByteSize_append, utf8ByteSize_replicate, MaxScanTokenSize]
  omega

/-- The line `longLine` does not fit in the buffer of the scanner. -/
theorem longLine_too_long : MaxScanTokenSize ≤ longLine.utf8ByteSize := by
  simp only [longLine, requestLine, longBody, longData, utf8ByteSize_append,
    utf8ByteSize_replicate, MaxScanTokenSize]
  omega

/-- A request line ends in a brace: `dropCR` leaves it as it is. -/
theorem dropCR_requestLine (method seqno : Nat) (body : String) :
    dropCR (requestLine method seqno body) = requestLine method seqno body := by
  have h : (requestLine method seqno body).data.getLast? = some '\x7d' := by
    simp only [requestLine, String.data_append]
    exact List.getLast?_concat _
  unfold dropCR
  rw [h, if_neg (by decide)]

/-- The library `longLib` reads the line `longLine`. -/
theorem longLib_envelope :
    longLib.unmarshalEnvelope longLine = .ok { Method := 2, Seqno := 1, Body := longBody } := by
  simp only [longLib, if_true]

/-- The library `longLib` reads the body `longBody`. -/
theorem longLib_body :
    longLib.unmarshalBody .publish longBody = .ok { Topic := "t", Data := longData } := by
  simp only [longLib, longBodyOf, if_true]

/-- On a line that the scanner hands on, `longLib` reads what `demoLib` reads. -/
theorem longLib_short_envelope (line : String) (h : line.utf8ByteSize < MaxScanTokenSize) :
    longLib.unmarshalEnvelope line = demoEnvelope line := by
  have hne : line ≠ longLine := fun e => absurd (e ▸ longLine_too_long) (Nat.not_le.mpr h)
  simp only [longLib, if_neg hne]

/-- On a `publish` body of less than 64 KiB, `longLib` reads what `demoLib`
reads. -/
theorem longLib_short_body (raw : String) (h : raw.utf8ByteSize < MaxScanTokenSize) :
    longLib.unmarshalBody .publish raw = demoBody .publish raw := by
  have hne : raw ≠ longBody := fun e => absurd (e ▸ longBody_too_long) (Nat.not_le.mpr h)
  simp only [longLib, longBodyOf, if_neg hne]

/-- Claim C1, as amended: for every line of the input of fewer than 65536 bytes
(`bufio.MaxScanTokenSize`; the scanner of `main` hands on no longer line) whose
text parses to the envelope `env` and to a request of its method, and whose
handler returns (`res`, in state `s1`) without panicking, the dispatcher writes
exactly one message for the request, after what was written before, and goes
on with the lines that follow: the success response `(seqno, success,
duration)` when the handler returned a result, the error response `(seqno,
error)` with the text of the error when it returned an error; the message
carries the sequence number of the envelope. -/
theorem mainLoop_one_response (lib : Lib) (line : String) (rest deferred : List String)
    (s : app) (env : envelope) (m : methodIdx) (msg : Body m) (res : Result) (s1 : app)
    (hlen : line.utf8ByteSize < MaxScanTokenSize)
    (henv : lib.unmarshalEnvelope (dropCR line) = .ok env)
    (hm : methodIdx.ofInt env.Method = some m)
    (hbody : lib.unmarshalBody m env.Body = .ok msg)
    (hrun : run lib m msg s = .ret res s1) :
    mainLoop lib (line :: rest) deferred s = mainLoop lib rest (dropCR line :: deferred)
      { s1 with
        Out := s.Out ++
          [match res with
           | .ok v => Msg.successResult env.Seqno ⟨v⟩ (lib.elapsed s1)
           | .error err => Msg.errorResult env.Seqno err.Error] } ∧
    (match res with
     | .ok v => Msg.successResult env.Seqno ⟨v⟩ (lib.elapsed s1)
     | .error err => Msg.errorResult env.Seqno err.Error).responseSeqno = some env.Seqno := by
  have h := mainTurn_one_response lib (dropCR line) deferred s env m msg res s1 henv hm hbody hrun
  refine ⟨?_, h.2⟩
  rw [mainLoop, if_pos hlen, h.1]

set_option maxRecDepth 100000 in
/-- Claim C1, witness: the line `listeningAddrs` with sequence number 3, as the
only line of the input in a configured state, is answered by the one success
response with `seqno` 3. -/
theorem mainLoop_one_response_witness :
    lineListeningAddrs.utf8ByteSize < MaxScanTokenSize ∧
    demoLib.unmarshalEnvelope (dropCR lineListeningAddrs)
      = .ok { Method := 13, Seqno := 3, Body := "\x7b\x7d" } ∧
    methodIdx.ofInt 13 = some .listeningAddrs ∧
    demoLib.unmarshalBody .listeningAddrs "\x7b\x7d" = .ok {} ∧
    run demoLib .listeningAddrs {} demoApp = .ret (.ok (.addrs [demoMaddr])) demoApp ∧
    mainLoop demoLib [lineListeningAddrs] [] demoApp
      = (.exit, { demoApp with Out := [Msg.successResult 3 ⟨.addrs [demoMaddr]⟩ "1ms"] }) :=
  ⟨by decide, by rfl, rfl, rfl, rfl,
   (mainLoop_one_response demoLib lineListeningAddrs [] [] demoApp
      { Method := 13, Seqno := 3, Body := "\x7b\x7d" } .listeningAddrs {}
      (.ok (.addrs [demoMaddr])) demoApp (by decide) (by rfl) rfl rfl rfl).1⟩

set_option maxRecDepth 100000 in
/-- Claim C1, counterexample: the line `longLine`, a `publish` request with
64 KiB of data, parses to an envelope with sequence number 1 and to a request
whose handler returns (the error `needsConfigure`, no helper existing); the
scanner does not hand the line on, the loop ends and nothing is written for
the request, where the same request with four bytes of data is answered with
the error response of `seqno` 1. -/
theorem mainLoop_long_line_unanswered :
    MaxScanTokenSize ≤ longLine.utf8ByteSize ∧
    dropCR longLine = longLine ∧
    longLib.unmarshalEnvelope longLine = .ok { Method := 2, Seqno := 1, Body := longBody } ∧
    methodIdx.ofInt 2 = some .publish ∧
    longLib.unmarshalBody .publish longBody = .ok { Topic := "t", Data := longData } ∧
    run longLib .publish { Topic := "t", Data := longData } app.init
      = .ret (.error needsConfigure) app.init ∧
    main longLib [longLine] = (.tooLong, app.init) ∧
    (main longLib [longLine]).2.Out = [] ∧
    (main longLib [linePublish]).2.Out = [Msg.errorResult 1 needsConfigure.Error] := by
  have hmain : main longLib [longLine] = (.tooLong, app.init) := by
    rw [main, mainLoop, if_neg (Nat.not_lt.mpr longLine_too_long)]
  have hshort : main longLib [linePublish]
      = (.exit, { app.init with Out := [Msg.errorResult 1 needsConfigure.Error] }) := by
    have hlen : linePublish.utf8ByteSize < MaxScanTokenSize := by decide
    have henv : longLib.unmarshalEnvelope (dropCR linePublish)
        = .ok { Method := 2, Seqno := 1, Body := bodyPublish } := by
      have hd : dropCR linePublish = linePublish := dropCR_requestLine 2 1 bodyPublish
      rw [hd, longLib_short_envelope _ hlen]
      rfl
    have hbody : longLib.unmarshalBody .publish bodyPublish
        = .ok { Topic := "t", Data := "AA==" } := by
      rw [longLib_short_body _ (by decide)]
      rfl
    have h := mainTurn_one_response longLib (dropCR linePublish) [] app.init
      { Method := 2, Seqno := 1, Body := bodyPublish } .publish { Topic := "t", Data := "AA==" }
      (.error needsConfigure) app.init henv rfl hbody rfl
    rw [main, mainLoop, if_pos hlen, h.1]
    rfl
  refine ⟨longLine_too_long, dropCR_requestLine 2 1 longBody, longLib_envelope, rfl,
    longLib_body, rfl, hmain, ?_, ?_⟩
  · rw [hmain]; rfl
  · rw [hshort]

/-- A request of a line the scanner hands on whose handler panics ends the
loop, whatever lines follow: the deferred function of its turn recovers the
panic and logs it with the line, `main` returns, and nothing has been written
for the request. -/
theorem mainLoop_stops_at_panic (lib : Lib) (line : String) (rest deferred : List String)
    (s : app) (env : envelope) (m : methodIdx) (msg : Body m) (v : String) (s1 : app)
    (hlen : line.utf8ByteSize < MaxScanTokenSize)
    (henv : lib.unmarshalEnvelope (dropCR line) = .ok env)
    (hm : methodIdx.ofInt env.Method = some m)
    (hbody : lib.unmarshalBody m env.Body = .ok msg)
    (hrun : run lib m msg s = .panic v s1) :
    mainLoop lib (line :: rest) deferred s =
      (.recovered (dropCR line) v,
        logLine ("While handling RPC:" ++ dropCR line ++ "\nThe following panic occurred: "
          ++ v) s1) ∧
    (mainLoop lib (line :: rest) deferred s).2.Out = s.Out := by
  have hout : s1.Out = s.Out := by
    have := run_Out lib m msg s
    rw [hrun] at this
    exact this
  have h : mainLoop lib (line :: rest) deferred s =
      (.recovered (dropCR line) v,
        logLine ("While handling RPC:" ++ dropCR line ++ "\nThe following panic occurred: "
          ++ v) s1) := by
    simp only [mainLoop, if_pos hlen, mainTurn, henv, hm, hbody, hrun, unwind]
  exact ⟨h, by rw [h]; exact hout⟩

set_option maxRecDepth 100000 in
/-- Claim C2, on the code: on the lines `configure`, `beginAdvertising`,
`listeningAddrs`, with a helper that has no DHT, the handler of the second line
panics; the panic is recovered and `main` ends there, as it does on the first
two lines alone: the output is the response to `configure` and holds no
response to `listeningAddrs`, which is answered when the panicking request is
left out. -/
theorem main_stops_at_panic :
    main demoLib [lineConfigure, lineBeginAdvertising, lineListeningAddrs]
      = (.recovered lineBeginAdvertising nilDeref,
         (main demoLib [lineConfigure, lineBeginAdvertising]).2) ∧
    (main demoLib [lineConfigure, lineBeginAdvertising, lineListeningAddrs]).2.Out
      = [Msg.successResult 1 ⟨.str "configure success"⟩ "1ms"] ∧
    (main demoLib [lineConfigure, lineListeningAddrs]).2.Out
      = [Msg.successResult 1 ⟨.str "configure success"⟩ "1ms",
         Msg.successResult 3 ⟨.addrs [demoMaddr]⟩ "1ms"] := by
  refine ⟨by decide, by decide, by decide⟩

/-! ## The guard on the helper -/

/-- With no helper, every method but `configure`, `generateKeypair` and
`findPeer` returns no result and the error `needsConfigure`, in the state it
was called in. -/
theorem run_needsConfigure (lib : Lib) (m : methodIdx) (b : Body m) (s : app)
    (hP : s.P2p = none) (h1 : m ≠ .configure) (h2 : m ≠ .generateKeypair)
    (h3 : m ≠ .findPeer) :
    run lib m b s = .ret (.error needsConfigure) s := by
  cases m <;> first
    | exact absurd rfl h1
    | exact absurd rfl h2
    | exact absurd rfl h3
    | simp only [run, listenMsg.run, listeningAddrsMsg.run, publishMsg.run,
      subscribeMsg.run, unsubscribeMsg.run, validationCompleteMsg.run,
      closeStreamMsg.run, resetStreamMsg.run, sendStreamMsgMsg.run, addStreamHandlerMsg.run,
      removeStreamHandlerMsg.run, addPeerMsg.run, beginAdvertisingMsg.run, banIPMsg.run,
      unbanIPMsg.run, openStreamMsg.run, listPeersMsg.run, hP]

/-- With no helper, `findPeer` of a peer identifier that decodes returns no
result and the error `needsConfigure`, in the state it was called in. -/
theorem findPeer_needsConfigure (lib : Lib) (b : findPeerMsg) (s : app) (id : PeerID)
    (hP : s.P2p = none) (hid : lib.IDB58Decode b.PeerID = .ok id) :
    findPeerMsg.run lib b s = .ret (.error needsConfigure) s := by
  simp only [findPeerMsg.run, hid, findPeerInfo, hP, Res.bind]

/-- In any state, with a helper or without, `findPeer` of a peer identifier
that does not decode returns the error of the decoder as it is: the decoding
of line 828 comes before the test of `app.P2p` in `findPeerInfo`. -/
theorem findPeer_decode_error (lib : Lib) (b : findPeerMsg) (s : app) (err : GoError)
    (herr : lib.IDB58Decode b.PeerID = .error err) :
    findPeerMsg.run lib b s = .ret (.error err) s := by
  simp only [findPeerMsg.run, herr]

set_option maxRecDepth 100000 in
/-- Claim C3, on the code: with no helper, `findPeer` of a peer identifier that
is not base-58 returns the error of the decoder and not `needsConfigure`; the
parent reads `invalid base58 digit ('0')` in the response, where `publish`
before `configure` is answered with the text of `needsConfigure`. -/
theorem findPeer_before_configure :
    run demoLib .findPeer { PeerID := "0OIl" } app.init
      = .ret (.error (.errorString "invalid base58 digit ('0')")) app.init ∧
    run demoLib .findPeer { PeerID := "0OIl" } app.init
      ≠ .ret (.error needsConfigure) app.init ∧
    (main demoLib [lineFindPeer]).2.Out = [Msg.errorResult 1 "invalid base58 digit ('0')"] ∧
    (main demoLib [linePublish]).2.Out = [Msg.errorResult 1 needsConfigure.Error] := by
  refine ⟨rfl, ?_, by decide, by decide⟩
  intro h
  have h1 : run demoLib .findPeer { PeerID := "0OIl" } app.init
      = .ret (.error (.errorString "invalid base58 digit ('0')")) app.init := rfl
  rw [h1] at h
  injection h with h2 _
  injection h2 with h3
  exact absurd h3 (by decide)

/-! ## The validator registry stays in order -/

theorem list_getElem?_set_free (l : List (Option Bool)) (ch ch' : Nat) (v : Option Bool)
    (h : l.get? ch' = some none) (hne : ch' ≠ ch) : (l.set ch v).get? ch' = some none := by
  simp only [List.get?_eq_getElem?] at h ⊢
  rw [List.getElem?_set_ne (Ne.symm hne)]
  exact h

theorem Res.bind_state {α β : Type} (P : app → Prop) (r : Res α) (f : α → app → Res β)
    (hr : P r.state) (hf : ∀ a s, P s → P (f a s).state) : P (r.bind f).state := by
  cases r with
  | ret a s => exact hf a s hr
  | panic v s => exact hr
  | block s => exact hr

theorem ValidatorsFree.of_fields {s t : app} (hV : ValidatorsFree s)
    (h1 : t.Validators = s.Validators) (h2 : t.chans = s.chans) : ValidatorsFree t := by
  unfold ValidatorsFree at *
  rw [h1, h2]
  exact hV

theorem ValidatorsFree.delete {s t : app} (n : Int) (hV : ValidatorsFree s)
    (h1 : t.Validators = s.Validators.delete n) (h2 : t.chans = s.chans) :
    ValidatorsFree t := by
  unfold ValidatorsFree at *
  rw [h1, h2]
  constructor
  · intro n' ch' h'
    simp only [GoMap.lookup_delete] at h'
    split at h'
    · exact absurd h' (by simp)
    · exact hV.1 n' ch' h'
  · intro n1 n2 ch' h1 h2
    simp only [GoMap.lookup_delete] at h1 h2
    split at h1
    · exact absurd h1 (by simp)
    · split at h2
      · exact absurd h2 (by simp)
      · exact hV.2 n1 n2 ch' h1 h2

theorem ValidatorsFree.made {s t : app} (n : Int) (hV : ValidatorsFree s)
    (h1 : t.Validators = s.Validators.insert n s.chans.length)
    (h2 : t.chans = s.chans ++ [none]) : ValidatorsFree t := by
  have hold : ∀ n' ch', s.Validators.lookup n' = some ch' → ch' < s.chans.length := by
    intro n' ch' h'
    have := hV.1 n' ch' h'
    simp only [List.get?_eq_getElem?] at this
    exact (List.getElem?_eq_some_iff.mp this).1
  unfold ValidatorsFree
  rw [h1, h2]
  constructor
  · intro n' ch' h'
    simp only [GoMap.lookup_insert] at h'
    simp only [List.get?_eq_getElem?]
    split at h'
    · have : ch' = s.chans.length := (Option.some.inj h').symm
      subst this
      simp
    · have hlt := hold n' ch' h'
      rw [List.getElem?_append_left hlt]
      have := hV.1 n' ch' h'
      simpa only [List.get?_eq_getElem?] using this
  · intro n1 n2 ch' h1 h2
    simp only [GoMap.lookup_insert] at h1 h2
    split at h1 <;> split at h2
    · rename_i e1 e2; rw [e1, e2]
    · have : ch' = s.chans.length := (Option.some.inj h1).symm
      have hlt := hold n2 ch' h2
      exact absurd (this ▸ hlt) (Nat.lt_irrefl _)
    · have : ch' = s.chans.length := (Option.some.inj h2).symm
      have hlt := hold n1 ch' h1
      exact absurd (this ▸ hlt) (Nat.lt_irrefl _)
    · exact hV.2 n1 n2 ch' h1 h2

theorem ValidatorsFree.received {s t : app} (ch : Chan) (hV : ValidatorsFree s)
    (h1 : t.Validators = s.Validators) (h2 : t.chans = s.chans.set ch none) :
    ValidatorsFree t := by
  unfold ValidatorsFree at *
  rw [h1, h2]
  refine ⟨fun n' ch' h' => ?_, hV.2⟩
  have hfree := hV.1 n' ch' h'
  by_cases hc : ch' = ch
  · subst hc
    simp only [List.get?_eq_getElem?] at hfree ⊢
    rw [List.getElem?_set_self (List.getElem?_eq_some_iff.mp hfree).1]
  · exact list_getElem?_set_free _ _ _ _ hfree hc

theorem findPeerInfo_Validators (lib : Lib) (id : PeerID) (s : app) :
    (findPeerInfo lib id s).state.Validators = s.Validators ∧
    (findPeerInfo lib id s).state.chans = s.chans ∧
    (findPeerInfo lib id s).state.UnsafeNoTrustIP = s.UnsafeNoTrustIP ∧
    (findPeerInfo lib id s).state.P2p = s.P2p := by
  unfold findPeerInfo
  repeat' split
  all_goals first
    | exact ⟨rfl, rfl, rfl, rfl⟩
    | (rw [parseMultiaddrWithID_state]; exact ⟨rfl, rfl, rfl, rfl⟩)

theorem listPeersLoop_Validators (lib : Lib) (conns : List Conn) (acc : List codaPeerInfo)
    (s : app) :
    (listPeersLoop lib conns acc s).state.Validators = s.Validators ∧
    (listPeersLoop lib conns acc s).state.chans = s.chans := by
  induction conns generalizing acc s with
  | nil => exact ⟨rfl, rfl⟩
  | cons c rest ih =>
    unfold listPeersLoop
    refine Res.bind_state (fun t => t.Validators = s.Validators ∧ t.chans = s.chans) _ _ ?_ ?_
    · rw [parseMultiaddrWithID_state]; exact ⟨rfl, rfl⟩
    · intro a s1 h1
      cases a with
      | error err =>
        simp only []
        exact ⟨(ih _ _).1.trans h1.1, (ih _ _).2.trans h1.2⟩
      | ok p =>
        simp only []
        exact ⟨(ih _ _).1.trans h1.1, (ih _ _).2.trans h1.2⟩

theorem run_Validators (lib : Lib) (m : methodIdx) (b : Body m) (s : app)
    (hm : m ≠ .validationComplete) :
    (run lib m b s).state.Validators = s.Validators ∧ (run lib m b s).state.chans = s.chans := by
  cases m
  case validationComplete => exact absurd rfl hm
  case openStream =>
    simp only [run, openStreamMsg.run]
    split
    · exact ⟨rfl, rfl⟩
    · split
      · exact ⟨rfl, rfl⟩
      · split
        · exact ⟨rfl, rfl⟩
        · refine Res.bind_state (fun t => t.Validators = s.Validators ∧ t.chans = s.chans)
            _ _ ?_ ?_
          · rw [parseMultiaddrWithID_state]; exact ⟨rfl, rfl⟩
          · intro a s1 h1
            cases a <;> exact h1
  case findPeer =>
    simp only [run, findPeerMsg.run]
    split
    · exact ⟨rfl, rfl⟩
    · refine Res.bind_state (fun t => t.Validators = s.Validators ∧ t.chans = s.chans) _ _ ?_ ?_
      · exact ⟨(findPeerInfo_Validators _ _ _).1, (findPeerInfo_Validators _ _ _).2.1⟩
      · intro a s1 h1
        cases a <;> exact h1
  case listPeers =>
    simp only [run, listPeersMsg.run]
    split
    · exact ⟨rfl, rfl⟩
    · refine Res.bind_state (fun t => t.Validators = s.Validators ∧ t.chans = s.chans) _ _ ?_ ?_
      · exact listPeersLoop_Validators _ _ _ _
      · intro a s1 h1; exact h1
  all_goals
    simp only [run, configureMsg.run, listenMsg.run, listeningAddrsMsg.run, publishMsg.run,
      subscribeMsg.run, unsubscribeMsg.run, generateKeypairMsg.run,
      closeStreamMsg.run, resetStreamMsg.run, sendStreamMsgMsg.run, addStreamHandlerMsg.run,
      removeStreamHandlerMsg.run, addPeerMsg.run, beginAdvertisingMsg.run, banIPMsg.run,
      unbanIPMsg.run]
    repeat' split
    all_goals exact ⟨rfl, rfl⟩

theorem streamReads_Validators (idx : Int) (rs : List ReadResult) (s : app) :
    (streamReads idx rs s).state.Validators = s.Validators ∧
    (streamReads idx rs s).state.chans = s.chans := by
  induction rs generalizing s with
  | nil => exact ⟨rfl, rfl⟩
  | cons r rest ih =>
    cases hr : r.err with
    | none =>
      simp only [streamReads, hr]
      refine ⟨(ih _).1.trans ?_, (ih _).2.trans ?_⟩ <;> split <;> rfl
    | some err =>
      simp only [streamReads, hr]
      repeat' split
      all_goals exact ⟨rfl, rfl⟩

theorem topicValidator_ValidatorsFree (lib : Lib) (subscription : Int) (id : PeerID)
    (data : List Byte) (s : app) (hV : ValidatorsFree s) :
    ValidatorsFree (topicValidator lib subscription id data s).state := by
  have h2 : ValidatorsFree
      { (takeSeq s).2 with
        chans := (takeSeq s).2.chans ++ [none],
        Validators := (takeSeq s).2.Validators.insert (takeSeq s).1 (takeSeq s).2.chans.length } :=
    ValidatorsFree.made (takeSeq s).1 hV rfl rfl
  unfold topicValidator
  simp only []
  split
  · exact h2
  · split
    · exact h2
    · refine Res.bind_state ValidatorsFree _ _ ?_ ?_
      · exact h2.of_fields (findPeerInfo_Validators _ _ _).1
          (findPeerInfo_Validators _ _ _).2.1
      · intro a s3 h3
        cases a with
        | error err =>
          simp only []
          split
          · exact h3.delete (takeSeq s).1 rfl rfl
          · exact h3.of_fields rfl rfl
        | ok sender => exact h3.of_fields rfl rfl

theorem validatorSelect_ValidatorsFree (ev : ValidatorEvent) (ch : Chan) (s : app)
    (hV : ValidatorsFree s) : ValidatorsFree (validatorSelect ev ch s).state := by
  unfold validatorSelect
  repeat' split
  all_goals first
    | exact hV
    | exact hV.of_fields rfl rfl
    | exact hV.received ch rfl rfl

theorem deliver_Validators (lib : Lib) (subscription : Int) (receivedFrom : PeerID)
    (data : List Byte) (s : app) :
    (deliver lib subscription receivedFrom data s).state.Validators = s.Validators ∧
    (deliver lib subscription receivedFrom data s).state.chans = s.chans := by
  unfold deliver
  refine Res.bind_state (fun t => t.Validators = s.Validators ∧ t.chans = s.chans) _ _ ?_ ?_
  · exact ⟨(findPeerInfo_Validators _ _ _).1, (findPeerInfo_Validators _ _ _).2.1⟩
  · intro a s1 h1
    cases a with
    | error err =>
      simp only []
      repeat' split
      all_goals exact h1
    | ok sender => exact h1

theorem incomingStream_Validators (lib : Lib) (protocol : String) (stream : Stream) (s : app) :
    (incomingStream lib protocol stream s).state.Validators = s.Validators ∧
    (incomingStream lib protocol stream s).state.chans = s.chans := by
  unfold incomingStream
  refine Res.bind_state (fun t => t.Validators = s.Validators ∧ t.chans = s.chans) _ _ ?_ ?_
  · rw [parseMultiaddrWithID_state]; exact ⟨rfl, rfl⟩
  · intro a s1 h1
    cases a with
    | error err =>
      simp only []
      split <;> exact h1
    | ok p => exact h1

theorem ValidatorsFree.of_empty (s : app) (h : s.Validators = GoMap.empty) :
    ValidatorsFree s := by
  unfold ValidatorsFree
  rw [h]
  exact ⟨fun n ch h => absurd h (by simp [GoMap.lookup, GoMap.empty, GoMap.lookupList]),
    fun n n' ch h => absurd h (by simp [GoMap.lookup, GoMap.empty, GoMap.lookupList])⟩

/-- A validator that has reached its `select` waits on the seqno it took from
the generator and on the channel it made; its record is in the registry, and a
helper is configured. -/
theorem topicValidator_waiting (lib : Lib) (subscription : Int) (id : PeerID)
    (data : List Byte) (s s1 : app) (n : Int) (ch : Chan)
    (h : topicValidator lib subscription id data s = .ret (.waiting n ch) s1) :
    n = s.seqs ∧ ch = s.chans.length ∧ s1.Validators.lookup n = some ch ∧
    s1.P2p = s.P2p ∧ s.P2p ≠ none := by
  unfold topicValidator at h
  simp only [] at h
  split at h
  · cases h
  · rename_i p hp
    split at h
    · cases h
    · cases hf : findPeerInfo lib id
          { (takeSeq s).2 with
            chans := (takeSeq s).2.chans ++ [none],
            Validators :=
              (takeSeq s).2.Validators.insert (takeSeq s).1 (takeSeq s).2.chans.length } with
      | panic v s3 => rw [hf] at h; cases h
      | block s3 => rw [hf] at h; cases h
      | ret r s3 =>
        have hfr := findPeerInfo_Validators lib id
          { (takeSeq s).2 with
            chans := (takeSeq s).2.chans ++ [none],
            Validators :=
              (takeSeq s).2.Validators.insert (takeSeq s).1 (takeSeq s).2.chans.length }
        rw [hf] at hfr h
        simp only [Res.state] at hfr
        have hp' : s.P2p = some p := hp
        cases r with
        | error err =>
          simp only [Res.bind] at h
          split at h
          · cases h
          · injection h with h1 h2
            injection h1 with h3 h4
            subst h2 h3 h4
            refine ⟨rfl, rfl, ?_, ?_, ?_⟩
            · show s3.Validators.lookup _ = _
              rw [hfr.1]; simp [GoMap.lookup_insert, takeSeq, seqsTurn]
            · show s3.P2p = _
              rw [hfr.2.2.2]; rfl
            · rw [hp']; simp
        | ok sender =>
          simp only [Res.bind] at h
          injection h with h1 h2
          injection h1 with h3 h4
          subst h2 h3 h4
          refine ⟨rfl, rfl, ?_, ?_, ?_⟩
          · show s3.Validators.lookup _ = _
            rw [hfr.1]; simp [GoMap.lookup_insert, takeSeq, seqsTurn]
          · show s3.P2p = _
            rw [hfr.2.2.2]; rfl
          · rw [hp']; simp

theorem respond_fields (lib : Lib) (env : envelope) (res : Result) (s : app) :
    (respond lib env res s).Validators = s.Validators ∧ (respond lib env res s).chans = s.chans := by
  unfold respond
  repeat' split
  all_goals exact ⟨rfl, rfl⟩

theorem validationComplete_known (lib : Lib) (s : app) (h : Helper) (n : Int) (b : Bool)
    (ch : Chan) (hP : s.P2p = some h) (hV : ValidatorsFree s)
    (hreg : s.Validators.lookup n = some ch) :
    validationCompleteMsg.run lib { Seqno := n, Valid := b } s
      = .ret (.ok (.str "validationComplete success"))
          { s with chans := s.chans.set ch (some b), Validators := s.Validators.delete n } ∧
    (s.chans.set ch (some b)).get? ch = some (some b) ∧
    ValidatorsFree
      { s with chans := s.chans.set ch (some b), Validators := s.Validators.delete n } := by
  have hfree := hV.1 n ch hreg
  have hlt : ch < s.chans.length := by
    simp only [List.get?_eq_getElem?] at hfree
    exact (List.getElem?_eq_some_iff.mp hfree).1
  refine ⟨?_, ?_, ?_, ?_⟩
  · simp only [validationCompleteMsg.run, hP, hreg, chanSend, hfree]
  · simp only [List.get?_eq_getElem?]
    rw [List.getElem?_set_self hlt]
  · intro n' ch' h'
    simp only [GoMap.lookup_delete] at h'
    split at h'
    · exact absurd h' (by simp)
    · rename_i hne
      have hch : ch' ≠ ch := fun heq => hne (hV.2 n' n ch (heq ▸ h') hreg)
      exact list_getElem?_set_free _ _ _ _ (hV.1 n' ch' h') hch
  · intro n1 n2 ch' h1 h2
    simp only [GoMap.lookup_delete] at h1 h2
    split at h1
    · exact absurd h1 (by simp)
    · split at h2
      · exact absurd h2 (by simp)
      · exact hV.2 n1 n2 ch' h1 h2

theorem validationComplete_ValidatorsFree (lib : Lib) (r : validationCompleteMsg) (s : app)
    (hV : ValidatorsFree s) : ValidatorsFree (validationCompleteMsg.run lib r s).state := by
  cases hP : s.P2p with
  | none => simp only [validationCompleteMsg.run, hP]; exact hV
  | some h =>
    cases hreg : s.Validators.lookup r.Seqno with
    | none => simp only [validationCompleteMsg.run, hP, hreg]; exact hV
    | some ch =>
      have := validationComplete_known lib s h r.Seqno r.Valid ch hP hV hreg
      rw [this.1]
      exact this.2.2

/-- In every state the process reaches, the validator registry is in order: the
slot of every channel it holds is free. -/
theorem reachable_validatorsFree (lib : Lib) (s : app) (hs : Reachable lib s) :
    ValidatorsFree s := by
  induction hs with
  | init => exact ⟨fun n ch h => absurd h (by simp [app.init, GoMap.lookup, GoMap.empty,
      GoMap.lookupList]), fun n n' ch h => absurd h (by simp [app.init, GoMap.lookup,
      GoMap.empty, GoMap.lookupList])⟩
  | step s s1 _ hstep ih =>
    cases hstep with
    | request env m b _ res s2 hrun =>
      refine ValidatorsFree.of_fields ?_ (respond_fields _ _ _ _).1 (respond_fields _ _ _ _).2
      by_cases hm : m = .validationComplete
      · subst hm
        have := validationComplete_ValidatorsFree lib b s ih
        have hrun' : validationCompleteMsg.run lib b s = .ret res s2 := hrun
        rw [hrun'] at this
        exact this
      · have := run_Validators lib m b s hm
        rw [hrun] at this
        exact ih.of_fields this.1 this.2
    | validator subscription id data _ st _ hrun =>
      have := topicValidator_ValidatorsFree lib subscription id data s ih
      rw [hrun] at this
      exact this
    | select ev ch _ v _ hrun =>
      have := validatorSelect_ValidatorsFree ev ch s ih
      rw [hrun] at this
      exact this
    | delivery subscription receivedFrom data _ _ hrun =>
      have := deliver_Validators lib subscription receivedFrom data s
      rw [hrun] at this
      exact ih.of_fields this.1 this.2
    | incoming protocol stream _ _ hrun =>
      have := incomingStream_Validators lib protocol stream s
      rw [hrun] at this
      exact ih.of_fields this.1 this.2
    | reads idx rs _ _ hrun =>
      have := streamReads_Validators idx rs s
      rw [hrun] at this
      exact ih.of_fields this.1 this.2
    | network _ h conns addrs hP => exact ih.of_fields rfl rfl

/-! ## The validator handshake -/

/-- Claim C5: with a helper configured and the validator registry in order (as
it is in every state the process reaches, `reachable_validatorsFree`), for
every seqno `n` and verdict `b`: if `n` is a key of the registry, with channel
`ch`, then `validationComplete(n, b)` returns `validationComplete success`,
the slot of `ch` holds `b` afterwards, and the registry is the one before
without the key `n`; if `n` is not a key it returns the RPC-error
`validation seqno unknown`, without a panic, in the state it was called in. -/
theorem validationComplete_contract (lib : Lib) (s : app) (h : Helper) (n : Int) (b : Bool)
    (hP : s.P2p = some h) (hV : ValidatorsFree s) :
    (∀ ch, s.Validators.lookup n = some ch →
      validationCompleteMsg.run lib { Seqno := n, Valid := b } s
        = .ret (.ok (.str "validationComplete success"))
            { s with chans := s.chans.set ch (some b), Validators := s.Validators.delete n } ∧
      (s.chans.set ch (some b)).get? ch = some (some b) ∧
      (∀ k, (s.Validators.delete n).lookup k = if k = n then none else s.Validators.lookup k)) ∧
    (s.Validators.lookup n = none →
      validationCompleteMsg.run lib { Seqno := n, Valid := b } s
        = .ret (.error (badRPC (errors.New "validation seqno unknown"))) s) := by
  constructor
  · intro ch hreg
    have := validationComplete_known lib s h n b ch hP hV hreg
    exact ⟨this.1, this.2.1, fun k => GoMap.lookup_delete _ _ _⟩
  · intro hreg
    simp only [validationCompleteMsg.run, hP, hreg]

/-- Claim C5, witness: in the state `demoWaiting`, whose registry holds seqno 0
with channel 0, `validationComplete(0, true)` succeeds, fills the slot and
empties the registry; `validationComplete(5, true)` is an RPC-error. -/
theorem validationComplete_contract_witness :
    demoWaiting.P2p = some demoHelper ∧ ValidatorsFree demoWaiting ∧
    demoWaiting.Validators.lookup 0 = some 0 ∧
    validationCompleteMsg.run demoLib { Seqno := 0, Valid := true } demoWaiting
      = .ret (.ok (.str "validationComplete success"))
          { demoWaiting with chans := [some true], Validators := GoMap.empty } ∧
    demoWaiting.Validators.lookup 5 = none ∧
    validationCompleteMsg.run demoLib { Seqno := 5, Valid := true } demoWaiting
      = .ret (.error (badRPC (errors.New "validation seqno unknown"))) demoWaiting :=
  ⟨rfl,
   topicValidator_ValidatorsFree demoLib 7 "peer" [104, 105] demoAppUnsafe
     (ValidatorsFree.of_empty _ rfl),
   rfl,
   ((validationComplete_contract demoLib demoWaiting demoHelper 0 true rfl
      (topicValidator_ValidatorsFree demoLib 7 "peer" [104, 105] demoAppUnsafe
        (ValidatorsFree.of_empty _ rfl))).1 0 rfl).1,
   rfl,
   (validationComplete_contract demoLib demoWaiting demoHelper 5 true rfl
      (topicValidator_ValidatorsFree demoLib 7 "peer" [104, 105] demoAppUnsafe
        (ValidatorsFree.of_empty _ rfl))).2 rfl⟩

/-- Claim C6: with a helper configured and the validator registry in order,
for a validator that waits for the verdict on seqno `n` with channel `ch`, no
verdict having been delivered (the record is in the registry): when the
deadline fires the validator returns `UnsafeNoTrustIP` (accept if it is set,
reject otherwise) and the record under `n` is still in the registry; a later
`validationComplete(n, b)` returns `validationComplete success` (the send does
not block), writes nothing to the parent and removes the record. -/
theorem validator_deadline_keeps_record (lib : Lib) (s : app) (h : Helper) (n : Int)
    (ch : Chan) (b : Bool) (hP : s.P2p = some h) (hV : ValidatorsFree s)
    (hreg : s.Validators.lookup n = some ch) :
    validatorSelect .deadline ch s
      = .ret s.UnsafeNoTrustIP (logLine "validation timed out :(" s) ∧
    (logLine "validation timed out :(" s).Validators.lookup n = some ch ∧
    validationCompleteMsg.run lib { Seqno := n, Valid := b } (logLine "validation timed out :(" s)
      = .ret (.ok (.str "validationComplete success"))
          { logLine "validation timed out :(" s with
            chans := s.chans.set ch (some b), Validators := s.Validators.delete n } ∧
    (s.Validators.delete n).lookup n = none ∧
    (logLine "validation timed out :(" s).Out = s.Out := by
  refine ⟨?_, hreg, ?_, ?_, rfl⟩
  · simp only [validatorSelect, hP]
  · exact (validationComplete_known lib (logLine "validation timed out :(" s) h n b ch hP
      (hV.of_fields rfl rfl) hreg).1
  · rw [GoMap.lookup_delete]; simp

/-- Claim C6, witness: in the state `demoWaiting`, where `unsafe_no_trust_ip`
is set, the deadline gives accept and leaves the record of seqno 0; the late
`validationComplete(0, false)` succeeds. -/
theorem validator_deadline_keeps_record_witness :
    demoWaiting.P2p = some demoHelper ∧ ValidatorsFree demoWaiting ∧
    demoWaiting.Validators.lookup 0 = some 0 ∧
    validatorSelect .deadline 0 demoWaiting
      = .ret true (logLine "validation timed out :(" demoWaiting) ∧
    validationCompleteMsg.run demoLib { Seqno := 0, Valid := false }
        (logLine "validation timed out :(" demoWaiting)
      = .ret (.ok (.str "validationComplete success"))
          { logLine "validation timed out :(" demoWaiting with
            chans := [some false], Validators := GoMap.empty } :=
  ⟨rfl,
   topicValidator_ValidatorsFree demoLib 7 "peer" [104, 105] demoAppUnsafe
     (ValidatorsFree.of_empty _ rfl),
   rfl,
   (validator_deadline_keeps_record demoLib demoWaiting demoHelper 0 0 false rfl
      (topicValidator_ValidatorsFree demoLib 7 "peer" [104, 105] demoAppUnsafe
        (ValidatorsFree.of_empty _ rfl)) rfl).1,
   (validator_deadline_keeps_record demoLib demoWaiting demoHelper 0 0 false rfl
      (topicValidator_ValidatorsFree demoLib 7 "peer" [104, 105] demoAppUnsafe
        (ValidatorsFree.of_empty _ rfl)) rfl).2.2.1⟩

/-! ## Banning and unbanning -/

theorem filter_no_rule (fs : filter.Filters) (ipnet : filter.IPNet)
    (hno : (fs.ActionForFilter ipnet).2 = false) : ∀ e ∈ fs.filters, e.1 ≠ ipnet := by
  unfold filter.Filters.ActionForFilter at hno
  split at hno
  · exact absurd hno (by simp)
  · rename_i hfind
    intro e he
    have := List.find?_eq_none.mp hfind e he
    simpa using this

theorem filter_add_new (fs : filter.Filters) (ipnet : filter.IPNet) (a : filter.Action)
    (hno : ∀ e ∈ fs.filters, e.1 ≠ ipnet) :
    fs.AddFilter ipnet a = { fs with filters := fs.filters ++ [(ipnet, a)] } := by
  unfold filter.Filters.AddFilter
  have : fs.filters.any (fun e => e.1 = ipnet) = false := by
    rw [List.any_eq_false]
    intro e he
    simpa using hno e he
  simp [this]

theorem filter_lookup_added (fs : filter.Filters) (ipnet : filter.IPNet) (a : filter.Action)
    (hno : ∀ e ∈ fs.filters, e.1 ≠ ipnet) :
    filter.Filters.ActionForFilter { fs with filters := fs.filters ++ [(ipnet, a)] } ipnet
      = (a, true) := by
  unfold filter.Filters.ActionForFilter
  have h1 : fs.filters.find? (fun e => e.1 = ipnet) = none := by
    rw [List.find?_eq_none]
    intro e he
    simpa using hno e he
  simp [List.find?_append, h1]

theorem filter_add_again (fs : filter.Filters) (ipnet : filter.IPNet) (a : filter.Action)
    (hno : ∀ e ∈ fs.filters, e.1 ≠ ipnet) :
    filter.Filters.AddFilter { fs with filters := fs.filters ++ [(ipnet, a)] } ipnet a
      = { fs with filters := fs.filters ++ [(ipnet, a)] } := by
  unfold filter.Filters.AddFilter
  have hmap : (fs.filters ++ [(ipnet, a)]).map
      (fun e => if e.1 = ipnet then (e.1, a) else e) = fs.filters ++ [(ipnet, a)] := by
    rw [List.map_append]
    congr 1
    · conv => rhs; rw [← List.map_id fs.filters]
      apply List.map_congr_left
      intro e he
      simp [hno e he]
    · simp
  simp [hmap]

theorem filter_remove_added (fs : filter.Filters) (ipnet : filter.IPNet) (a : filter.Action)
    (hno : ∀ e ∈ fs.filters, e.1 ≠ ipnet) :
    (filter.Filters.RemoveLiteral { fs with filters := fs.filters ++ [(ipnet, a)] } ipnet).1
      = fs := by
  have hf : (fs.filters ++ [(ipnet, a)]).filter (fun e => e.1 ≠ ipnet) = fs.filters := by
    rw [List.filter_append]
    have h1 : fs.filters.filter (fun e => e.1 ≠ ipnet) = fs.filters := by
      rw [List.filter_eq_self]
      intro e he
      simpa using hno e he
    rw [h1]
    simp
  have hany : (fs.filters ++ [(ipnet, a)]).any (fun e => e.1 = ipnet) = true := by simp
  unfold filter.Filters.RemoveLiteral
  simp only [hany, if_true]
  rw [hf]

/-- Claim C9: with a helper configured, for every text `x` that parses as an
IPv4 address whose /32 has no rule in the filter table: `banIP(x)` returns
`banIP success` and a second `banIP(x)` returns `banIP already banned`; after
the one ban, `unbanIP(x)` returns `unbanIP success`, which gives the state
before the ban again, and a second `unbanIP(x)` returns `unbanIP not banned`. -/
theorem banIP_unbanIP_contract (lib : Lib) (s : app) (h : Helper) (x : String)
    (ip : List Byte) (hP : s.P2p = some h) (hip : lib.ParseIPTo4 x = some ip)
    (hno : (h.Filters.ActionForFilter { IP := ip, Mask := IPv4Mask32 }).2 = false) :
    banIPMsg.run lib { IP := x } s = .ret (.ok (.str "banIP success"))
      { s with P2p := some { h with Filters := { h.Filters with
          filters := h.Filters.filters
            ++ [({ IP := ip, Mask := IPv4Mask32 }, .ActionDeny)] } } } ∧
    banIPMsg.run lib { IP := x }
      { s with P2p := some { h with Filters := { h.Filters with
          filters := h.Filters.filters
            ++ [({ IP := ip, Mask := IPv4Mask32 }, .ActionDeny)] } } }
      = .ret (.ok (.str "banIP already banned"))
        { s with P2p := some { h with Filters := { h.Filters with
            filters := h.Filters.filters
              ++ [({ IP := ip, Mask := IPv4Mask32 }, .ActionDeny)] } } } ∧
    unbanIPMsg.run lib { IP := x }
      { s with P2p := some { h with Filters := { h.Filters with
          filters := h.Filters.filters
            ++ [({ IP := ip, Mask := IPv4Mask32 }, .ActionDeny)] } } }
      = .ret (.ok (.str "unbanIP success")) s ∧
    unbanIPMsg.run lib { IP := x } s = .ret (.ok (.str "unbanIP not banned")) s := by
  have hne := filter_no_rule _ _ hno
  have hs : { s with P2p := some h } = s := by
    cases s; simp only at hP; subst hP; rfl
  refine ⟨?_, ?_, ?_, ?_⟩
  · simp only [banIPMsg.run, hP, hip, hno, filter_add_new _ _ _ hne]
    simp
  · simp only [banIPMsg.run, hip, filter_lookup_added _ _ _ hne, filter_add_again _ _ _ hne]
    simp
  · simp only [unbanIPMsg.run, hip, filter_lookup_added _ _ _ hne,
      filter_remove_added _ _ _ hne]
    simp [hs]
  · simp only [unbanIPMsg.run, hP, hip, hno]
    simp

/-- Claim C9, witness: `10.0.0.1` on the empty filter table of `demoApp`. -/
theorem banIP_unbanIP_contract_witness :
    demoApp.P2p = some demoHelper ∧
    demoLib.ParseIPTo4 "10.0.0.1" = some [10, 0, 0, 1] ∧
    (demoHelper.Filters.ActionForFilter { IP := [10, 0, 0, 1], Mask := IPv4Mask32 }).2 = false ∧
    banIPMsg.run demoLib { IP := "10.0.0.1" } demoApp = .ret (.ok (.str "banIP success"))
      { demoApp with P2p := some { demoHelper with Filters := { demoHelper.Filters with
          filters := [({ IP := [10, 0, 0, 1], Mask := IPv4Mask32 }, .ActionDeny)] } } } ∧
    unbanIPMsg.run demoLib { IP := "10.0.0.1" } demoApp
      = .ret (.ok (.str "unbanIP not banned")) demoApp :=
  ⟨rfl, rfl, rfl,
   (banIP_unbanIP_contract demoLib demoApp demoHelper "10.0.0.1" [10, 0, 0, 1] rfl rfl rfl).1,
   (banIP_unbanIP_contract demoLib demoApp demoHelper "10.0.0.1" [10, 0, 0, 1] rfl rfl rfl).2.2.2⟩

/-! ## Subscriptions -/

theorem unsubscribe_known (lib : Lib) (s : app) (h : Helper) (i : Int) (sub : subscription)
    (hP : s.P2p = some h) (hsub : s.Subs.lookup i = some sub) :
    unsubscribeMsg.run lib { Subscription := i } s
      = .ret (.ok (.str "unsubscribe success"))
          { s with
            calls := s.calls ++ [.SubCancel sub.Sub, .CtxCancel sub.Ctx],
            Subs := s.Subs.delete i } := by
  simp only [unsubscribeMsg.run, hP, hsub, record]
  simp

/-- Claim C10: with a helper configured, for every index `i`: if `i` is a key of
the subscription registry, with record `sub`, then `unsubscribe(i)` returns
`unsubscribe success`, cancels the gossip subscription `sub.Sub` and the context
`sub.Ctx` of the delivery task, and the registry is the one before without the
key `i`; if `i` is not a key it returns the RPC-error `subscription not found`
in the state it was called in; and after a successful `subscribe(topic, i)` on
an empty subscription registry, `unsubscribe(i)` succeeds and leaves the
registry empty. -/
theorem unsubscribe_contract (lib : Lib) (s : app) (h : Helper) (i : Int)
    (hP : s.P2p = some h) :
    (∀ sub, s.Subs.lookup i = some sub →
      unsubscribeMsg.run lib { Subscription := i } s
        = .ret (.ok (.str "unsubscribe success"))
            { s with
              calls := s.calls ++ [.SubCancel sub.Sub, .CtxCancel sub.Ctx],
              Subs := s.Subs.delete i } ∧
      (∀ k, (s.Subs.delete i).lookup k = if k = i then none else s.Subs.lookup k)) ∧
    (s.Subs.lookup i = none →
      unsubscribeMsg.run lib { Subscription := i } s
        = .ret (.error (badRPC (errors.New "subscription not found"))) s) ∧
    (∀ topic v s1, s.Subs = GoMap.empty →
      subscribeMsg.run lib { Topic := topic, Subscription := i } s = .ret (.ok v) s1 →
      ∃ s2, unsubscribeMsg.run lib { Subscription := i } s1
          = .ret (.ok (.str "unsubscribe success")) s2 ∧ s2.Subs = GoMap.empty) := by
  refine ⟨?_, ?_, ?_⟩
  · intro sub hsub
    exact ⟨unsubscribe_known lib s h i sub hP hsub, fun k => GoMap.lookup_delete _ _ _⟩
  · intro hsub
    simp only [unsubscribeMsg.run, hP, hsub]
  · intro topic v s1 hempty hrun
    simp only [subscribeMsg.run, hP] at hrun
    split at hrun
    · cases hrun
    · split at hrun
      · cases hrun
      · split at hrun
        · cases hrun
        · rename_i sub hsubscribe
          injection hrun with _ hs1
          subst hs1
          refine ⟨_, unsubscribe_known lib _ h i
            { Sub := sub, Idx := i, Ctx := s.calls.length + 2 } hP ?_, ?_⟩
          · simp [spawn, record, GoMap.lookup_insert]
          · simp [spawn, record, hempty, GoMap.insert, GoMap.delete, GoMap.empty]

/-- Claim C10, witness: `unsubscribe(7)` in `demoAppDht`, where nothing is
subscribed, is an RPC-error; after `subscribe(t, 7)` it succeeds and leaves the
registry empty. -/
theorem unsubscribe_contract_witness :
    demoAppDht.P2p = some { demoHelper with Dht := true } ∧
    demoAppDht.Subs.lookup 7 = none ∧
    unsubscribeMsg.run demoLib { Subscription := 7 } demoAppDht
      = .ret (.error (badRPC (errors.New "subscription not found"))) demoAppDht ∧
    subscribeMsg.run demoLib { Topic := "t", Subscription := 7 } demoAppDht
      = .ret (.ok (.str "subscribe success")) demoSubscribed ∧
    ∃ s2, unsubscribeMsg.run demoLib { Subscription := 7 } demoSubscribed
      = .ret (.ok (.str "unsubscribe success")) s2 ∧ s2.Subs = GoMap.empty :=
  ⟨rfl, rfl,
   (unsubscribe_contract demoLib demoAppDht { demoHelper with Dht := true } 7 rfl).2.1 rfl,
   rfl,
   (unsubscribe_contract demoLib demoAppDht { demoHelper with Dht := true } 7 rfl).2.2
     "t" (.str "subscribe success") demoSubscribed rfl rfl⟩

/-! ## The list of peers -/

/-- The loop of `listPeers` appends to the slice it is given: what it returns
starts with that slice, followed by at most one descriptor per connection. -/
theorem listPeersLoop_appends (lib : Lib) (conns : List Conn) (acc out : List codaPeerInfo)
    (s s1 : app) (h : listPeersLoop lib conns acc s = .ret out s1) :
    ∃ rest, out = acc ++ rest ∧ rest.length ≤ conns.length := by
  induction conns generalizing acc s with
  | nil =>
    simp only [listPeersLoop] at h
    injection h with h1 _
    exact ⟨[], by simp [h1], by simp⟩
  | cons c rest ih =>
    unfold listPeersLoop at h
    cases hp : parseMultiaddrWithID lib c.RemoteMultiaddr c.RemotePeer s with
    | panic v s2 => rw [hp] at h; cases h
    | block s2 => rw [hp] at h; cases h
    | ret r s2 =>
      rw [hp] at h
      simp only [Res.bind] at h
      cases r with
      | error err =>
        obtain ⟨rest', h1, h2⟩ := ih _ _ h
        exact ⟨rest', h1, by simp only [List.length_cons]; omega⟩
      | ok p =>
        obtain ⟨rest', h1, h2⟩ := ih _ _ h
        refine ⟨p :: rest', by simp [h1], ?_⟩
        simp only [List.length_cons]
        omega

/-- Whatever `listPeers` returns starts with as many zero descriptors as there
are connections. -/
theorem listPeers_zero_descriptors (lib : Lib) (s s1 : app) (h : Helper)
    (out : List codaPeerInfo) (hP : s.P2p = some h)
    (hrun : listPeersMsg.run lib {} s = .ret (.ok (.peerInfos out)) s1) :
    ∃ rest, out = List.replicate h.Conns.length { Libp2pPort := 0, Host := "", PeerID := "" }
      ++ rest ∧ rest.length ≤ h.Conns.length := by
  simp only [listPeersMsg.run, hP] at hrun
  cases hl : listPeersLoop lib h.Conns
      (List.replicate h.Conns.length { Libp2pPort := 0, Host := "", PeerID := "" }) s with
  | panic v s2 => rw [hl] at hrun; cases hrun
  | block s2 => rw [hl] at hrun; cases hrun
  | ret r s2 =>
    rw [hl] at hrun
    simp only [Res.bind] at hrun
    injection hrun with h1 _
    injection h1 with h2
    injection h2 with h3
    subst h3
    exact listPeersLoop_appends lib _ _ _ _ _ hl

set_option maxRecDepth 100000 in
/-- Claim C11, on the code: with the two connections of `demoAppConns`, of
which the one to `peerA` gives a descriptor and the one to `peerB` gives none,
`listPeers` returns three descriptors: two zero descriptors, one for each
connection (the slice `make` returned), and then the descriptor of `peerA`;
not the one descriptor of the one convertible connection. -/
theorem listPeers_doubles :
    (∃ s1, listPeersMsg.run demoLib {} demoAppConns
      = .ret (.ok (.peerInfos
          [{ Libp2pPort := 0, Host := "", PeerID := "" },
           { Libp2pPort := 0, Host := "", PeerID := "" },
           { Libp2pPort := 8302, Host := "10.0.0.2", PeerID := "peerA" }])) s1) ∧
    (∃ s1, parseMultiaddrWithID demoLib demoMaddr "peerA" demoAppConns
      = .ret (.ok { Libp2pPort := 8302, Host := "10.0.0.2", PeerID := "peerA" }) s1) ∧
    (∃ err s1, parseMultiaddrWithID demoLib demoUdpMaddr "peerB" demoAppConns
      = .ret (.error err) s1) := by
  exact ⟨⟨_, rfl⟩, ⟨_, rfl⟩, ⟨_, _, rfl⟩⟩

/-! ## Closing and resetting a stream -/

/-- Claim C12, as amended: with a helper configured, for every index `i` that
is a key of the stream registry, with stream `stream`: a successful
`resetStream(i)` leaves the registry without the key `i` and with every other
entry unchanged; a successful `closeStream(i)` leaves the registry as it was,
`i` still a key with its stream. -/
theorem closeStream_resetStream_registry (lib : Lib) (s : app) (h : Helper) (i : Int)
    (stream : Stream) (hP : s.P2p = some h) (hreg : s.Streams.lookup i = some stream) :
    (lib.StreamReset s stream = none →
      resetStreamMsg.run lib { StreamIdx := i } s
        = .ret (.ok (.str "resetStream success"))
            { record (.StreamReset stream) s with Streams := s.Streams.delete i } ∧
      (∀ k, (s.Streams.delete i).lookup k = if k = i then none else s.Streams.lookup k)) ∧
    (lib.StreamClose s stream = none →
      closeStreamMsg.run lib { StreamIdx := i } s
        = .ret (.ok (.str "closeStream success")) (record (.StreamClose stream) s) ∧
      (record (.StreamClose stream) s).Streams = s.Streams ∧
      (record (.StreamClose stream) s).Streams.lookup i = some stream) := by
  constructor
  · intro hreset
    refine ⟨?_, fun k => GoMap.lookup_delete _ _ _⟩
    simp only [resetStreamMsg.run, hP, hreg, hreset]
    rfl
  · intro hclose
    refine ⟨?_, rfl, hreg⟩
    simp only [closeStreamMsg.run, hP, hreg, hclose]

/-- Claim C12, witness: in `demoAppStream`, `resetStream(0)` empties the
registry and `closeStream(0)` leaves the stream under 0. -/
theorem closeStream_resetStream_registry_witness :
    demoAppStream.P2p = some demoHelper ∧
    demoAppStream.Streams.lookup 0 = some demoStream ∧
    demoLib.StreamReset demoAppStream demoStream = none ∧
    resetStreamMsg.run demoLib { StreamIdx := 0 } demoAppStream
      = .ret (.ok (.str "resetStream success"))
          { record (.StreamReset demoStream) demoAppStream with Streams := GoMap.empty } ∧
    demoLib.StreamClose demoAppStream demoStream = none ∧
    closeStreamMsg.run demoLib { StreamIdx := 0 } demoAppStream
      = .ret (.ok (.str "closeStream success"))
          (record (.StreamClose demoStream) demoAppStream) :=
  ⟨rfl, rfl, rfl,
   ((closeStream_resetStream_registry demoLib demoAppStream demoHelper 0 demoStream
      rfl rfl).1 rfl).1,
   rfl,
   ((closeStream_resetStream_registry demoLib demoAppStream demoHelper 0 demoStream
      rfl rfl).2 rfl).1⟩

/-- Claim C12, counterexample: in `demoAppStream`, `closeStream(0)` succeeds
and the index 0 is still a key of the stream registry afterwards. -/
theorem closeStream_keeps_record :
    closeStreamMsg.run demoLib { StreamIdx := 0 } demoAppStream
      = .ret (.ok (.str "closeStream success"))
          (record (.StreamClose demoStream) demoAppStream) ∧
    (record (.StreamClose demoStream) demoAppStream).Streams.lookup 0 = some demoStream ∧
    (record (.StreamClose demoStream) demoAppStream).Streams.lookup 0 ≠ none := by
  refine ⟨rfl, rfl, ?_⟩
  intro h
  have h1 : (record (.StreamClose demoStream) demoAppStream).Streams.lookup 0
      = some demoStream := rfl
  rw [h1] at h
  cases h

/-! ## The validator on a message of the local peer -/

/-- On a message of the local peer, the validator returns accept after it has
taken a value from the generator and put a new channel in the registry under
it; it writes nothing to the parent. -/
theorem topicValidator_self (lib : Lib) (subscription : Int) (data : List Byte) (s : app)
    (p : Helper) (hP : s.P2p = some p) :
    topicValidator lib subscription p.Me data s
      = .ret (.done true)
          { s with
            seqs := wrapInt64 (s.seqs + 1),
            chans := s.chans ++ [none],
            Validators := s.Validators.insert s.seqs s.chans.length } := by
  simp only [topicValidator, takeSeq, seqsTurn, hP, if_true]

/-- Claim C14, on the code: in `demoApp`, whose local peer is `me`, the
validator called for a message from `me` returns accept and writes no upcall,
but the generator has moved from 0 to 1 and the registry, empty before, holds
a channel under the seqno 0. -/
theorem topicValidator_self_registers :
    topicValidator demoLib 7 "me" [104, 105] demoApp
      = .ret (.done true)
          { demoApp with seqs := 1, chans := [none], Validators := GoMap.empty.insert 0 0 } ∧
    (topicValidator demoLib 7 "me" [104, 105] demoApp).state.Out = demoApp.Out ∧
    demoApp.seqs = 0 ∧ (topicValidator demoLib 7 "me" [104, 105] demoApp).state.seqs = 1 ∧
    demoApp.Validators.lookup 0 = none ∧
    (topicValidator demoLib 7 "me" [104, 105] demoApp).state.Validators.lookup 0 = some 0 := by
  exact ⟨rfl, rfl, rfl, rfl, rfl, rfl⟩

/-! ## Base-64 -/

theorem decodeSextet_encodeSextet (n : Nat) (h : n < 64) :
    decodeSextet (encodeSextet n) = some n := by
  have key : ∀ m : Fin 64, decodeSextet (encodeSextet m.val) = some m.val := by decide
  exact key ⟨n, h⟩

theorem encodeSextet_ne_pad (n : Nat) (h : n < 64) : encodeSextet n ≠ padChar := by
  have key : ∀ m : Fin 64, encodeSextet m.val ≠ padChar := by decide
  exact key ⟨n, h⟩

theorem encodeSextet_not_break (n : Nat) :
    encodeSextet n ≠ '\r' ∧ encodeSextet n ≠ '\n' := by
  by_cases h : n < 64
  · have key : ∀ m : Fin 64, encodeSextet m.val ≠ '\r' ∧ encodeSextet m.val ≠ '\n' := by decide
    exact key ⟨n, h⟩
  · have : encodeSextet n = 'A' := by
      unfold encodeSextet
      rw [List.getD_eq_default]
      simp [encodeStd]
      omega
    rw [this]
    decide

theorem decodeQuanta_encodeBytes (b : List Byte) (off : Nat) :
    decodeQuanta off (encodeBytes b) = .ok b := by
  induction b using encodeBytes.induct generalizing off with
  | case1 => simp [encodeBytes, decodeQuanta]
  | case2 a =>
    have ha := a.isLt
    have h1 : a.val / 4 < 64 := by omega
    have h2 : a.val % 4 * 16 < 64 := by omega
    simp only [encodeBytes, decodeQuanta, decodeSextet_encodeSextet _ h1,
      decodeSextet_encodeSextet _ h2, if_true, and_self]
    congr 2
    apply Fin.ext
    show (a.val / 4 * 4 + a.val % 4 * 16 / 16) % 256 = a.val
    omega
  | case3 a b =>
    have ha := a.isLt
    have hb := b.isLt
    have h1 : a.val / 4 < 64 := by omega
    have h2 : a.val % 4 * 16 + b.val / 16 < 64 := by omega
    have h3 : b.val % 16 * 4 < 64 := by omega
    simp only [encodeBytes, decodeQuanta, decodeSextet_encodeSextet _ h1,
      decodeSextet_encodeSextet _ h2, decodeSextet_encodeSextet _ h3,
      if_neg (encodeSextet_ne_pad _ h3), if_true]
    congr 2
    · apply Fin.ext
      show (a.val / 4 * 4 + (a.val % 4 * 16 + b.val / 16) / 16) % 256 = a.val
      omega
    · congr 1
      apply Fin.ext
      show ((a.val % 4 * 16 + b.val / 16) % 16 * 16 + b.val % 16 * 4 / 4) % 256 = b.val
      omega
  | case4 a b c rest ih =>
    have ha := a.isLt
    have hb := b.isLt
    have hc := c.isLt
    have h1 : a.val / 4 < 64 := by omega
    have h2 : a.val % 4 * 16 + b.val / 16 < 64 := by omega
    have h3 : b.val % 16 * 4 + c.val / 64 < 64 := by omega
    have h4 : c.val % 64 < 64 := by omega
    simp only [encodeBytes, decodeQuanta, decodeSextet_encodeSextet _ h1,
      decodeSextet_encodeSextet _ h2, decodeSextet_encodeSextet _ h3,
      decodeSextet_encodeSextet _ h4,
      if_neg (encodeSextet_ne_pad _ h3), if_neg (encodeSextet_ne_pad _ h4), ih]
    congr 2
    · apply Fin.ext
      show (a.val / 4 * 4 + (a.val % 4 * 16 + b.val / 16) / 16) % 256 = a.val
      omega
    · congr 1
      · apply Fin.ext
        show ((a.val % 4 * 16 + b.val / 16) % 16 * 16 + (b.val % 16 * 4 + c.val / 64) / 4) % 256
          = b.val
        omega
      · congr 1
        apply Fin.ext
        show ((b.val % 16 * 4 + c.val / 64) % 4 * 64 + c.val % 64) % 256 = c.val
        omega

theorem encodeBytes_no_break (b : List Byte) :
    ∀ ch ∈ encodeBytes b, ch ≠ '\r' ∧ ch ≠ '\n' := by
  induction b using encodeBytes.induct with
  | case1 => simp [encodeBytes]
  | case2 a =>
    intro ch hch
    simp only [encodeBytes, List.mem_cons, List.mem_singleton, List.not_mem_nil, or_false] at hch
    rcases hch with h | h | h | h <;> rw [h] <;>
      first | exact encodeSextet_not_break _ | decide
  | case3 a b =>
    intro ch hch
    simp only [encodeBytes, List.mem_cons, List.mem_singleton, List.not_mem_nil, or_false] at hch
    rcases hch with h | h | h | h <;> rw [h] <;>
      first | exact encodeSextet_not_break _ | decide
  | case4 a b c rest ih =>
    intro ch hch
    simp only [encodeBytes, List.mem_cons] at hch
    rcases hch with h | h | h | h | h
    · rw [h]; exact encodeSextet_not_break _
    · rw [h]; exact encodeSextet_not_break _
    · rw [h]; exact encodeSextet_not_break _
    · rw [h]; exact encodeSextet_not_break _
    · exact ih ch h

/-- Claim C13: for every byte sequence `b`, `codaDecode (codaEncode b)`
succeeds and returns exactly `b`. -/
theorem codaDecode_codaEncode (b : List Byte) : codaDecode (codaEncode b) = .ok b := by
  unfold codaDecode codaEncode
  have hfilter : (encodeBytes b).filter (fun c => c ≠ '\r' ∧ c ≠ '\n') = encodeBytes b := by
    rw [List.filter_eq_self]
    intro ch hch
    simpa using encodeBytes_no_break b ch hch
  show decodeQuanta 0 ((encodeBytes b).filter (fun c => c ≠ '\r' ∧ c ≠ '\n')) = .ok b
  rw [hfilter]
  exact decodeQuanta_encodeBytes b 0

end Libp2pHelper
